import Mathlib

/-!
# The dummy vcdiff parser of `subversion/libsvn_delta/vcdiff_parse.c`

A shallow embedding of the window-cutting parser: `svn_make_vcdiff_parser`,
`svn_vcdiff_send_window`, `svn_vcdiff_parse` and `svn_vcdiff_flush_buffer`.

The C code works on a parser structure and on memory that it reaches through
pointers: APR pools, `svn_string_t` objects living in those pools, and the
consumer's own data behind its baton.  Here the parser structure is a Lean
structure and everything else is an explicit `svn_world` that every function
takes and returns.  Pools and strings are identified by natural numbers.

The last part of the definitions embeds the binary search
`message_table_gettext` of `subversion/libsvn_subr/intl.c`.
-/

namespace Svn

/-! ## Data model -/

/-- Handle of an APR pool (`apr_pool_t *`). -/
abbrev apr_pool_t := Nat

/-- Address of a `svn_string_t` object (`svn_string_t *`). -/
abbrev svn_string_ptr := Nat

/-- Modelled from the spec: the byte string type of `svn_string.h` (not under
src/), an ordered byte sequence owned by exactly one region.  `data` holds the
bytes, `pool` is the pool the string was allocated from. -/
structure svn_string_t where
  data : List UInt8
  pool : apr_pool_t
deriving DecidableEq, Repr

/-- The `len` field of a string: the number of bytes it holds. -/
def svn_string_t.len (s : svn_string_t) : Nat := s.data.length

/-- Modelled from the spec: the error object of `svn_error.h` (not under src/).
An error is either an original one or another error wrapped with a message
giving context. -/
inductive svn_error_t where
  | original (apr_err : Int) (message : String) : svn_error_t
  | wrapped (child : svn_error_t) (message : String) : svn_error_t
deriving DecidableEq, Repr

/-- `SVN_NO_ERROR` is the null error pointer. -/
def SVN_NO_ERROR : Option svn_error_t := none

/-- Modelled from the spec: `svn_quick_wrap_error` of `svn_error.h` (not under
src/) wraps an error with a message identifying the context. -/
def svn_quick_wrap_error (child : svn_error_t) (new_msg : String) : svn_error_t :=
  svn_error_t.wrapped child new_msg

/-- Modelled from the spec: the instruction kinds of `svn_delta.h` (not under
src/).  The parser only ever builds `svn_delta_new` ("append new text"); the
other kinds stand for the copy instructions the format is open to. -/
inductive svn_delta_action where
  | svn_delta_source
  | svn_delta_target
  | svn_delta_new
deriving DecidableEq, Repr

/-- One instruction of a window (`svn_delta_op_t`). -/
structure svn_delta_op_t where
  op : svn_delta_action
  offset : Nat
  length : Nat
deriving DecidableEq, Repr

/-- A window (`svn_delta_window_t`).  `ops` is the instruction array, `new` the
address of the payload string.  `my_pool` is `none` as long as the field has
never been assigned (memory from `apr_palloc` is not initialised). -/
structure svn_delta_window_t where
  num_ops : Int
  ops : List svn_delta_op_t
  new : svn_string_ptr
  my_pool : Option apr_pool_t
deriving DecidableEq, Repr

/-- One call of the consumer routine, as recorded by the world: the window it
was given, the bytes of the string `window.new` pointed to at that moment, the
parser's sub-pool at that moment (where the window and its instruction were
allocated), and what the consumer returned. -/
structure svn_delivery where
  window : svn_delta_window_t
  payload : List UInt8
  region : apr_pool_t
  result : Option svn_error_t
deriving DecidableEq, Repr

/-- Everything the parser reaches through pointers.  `next_pool` is the pool
allocator (handles below it are in use), `strings` the string objects by
address, `baton` the consumer's own data, and `trace` the calls of the consumer
routine made so far, oldest first. -/
structure svn_world (β : Type) where
  next_pool : Nat
  strings : List svn_string_t
  baton : β
  trace : List svn_delivery

/-- A consumer routine (`svn_delta_handler_t`): it is given the window and its
baton, may read the string memory, and returns an error or `none` together with
the new contents of its own data. -/
abbrev svn_delta_handler_t (β : Type) :=
  List svn_string_t → svn_delta_window_t → Nat → β → Option svn_error_t × β

/-- The parser object (`svn_vcdiff_parser_t`). -/
structure svn_vcdiff_parser_t (β : Type) where
  consumer_func : svn_delta_handler_t β
  consumer_baton : Nat
  pool : apr_pool_t
  subpool : apr_pool_t
  buffer : svn_string_ptr

/-- How many bytes should each vcdiff window be? -/
def SVN_VCDIFF_WINDOW_SIZE : Nat := 5

/-! ## The pool and string operations the parser calls -/

/-- Modelled from the spec: `apr_make_sub_pool` (APR, not under src/) opens a
fresh region: it returns a pool handle that was not in use before. -/
def apr_make_sub_pool {β : Type} (_parent : apr_pool_t) (w : svn_world β) :
    apr_pool_t × svn_world β :=
  (w.next_pool, { w with next_pool := w.next_pool + 1 })

/-- Modelled from the spec: `svn_string_create` of `svn_string.h` (not under
src/) allocates a new string object in `pool` holding the given bytes and
returns its address. -/
def svn_string_create {β : Type} (cstring : List UInt8) (pool : apr_pool_t)
    (w : svn_world β) : svn_string_ptr × svn_world β :=
  (w.strings.length, { w with strings := w.strings ++ [⟨cstring, pool⟩] })

/-- The string object at an address; an address that was never allocated reads
as an empty string. -/
def svn_string_at {β : Type} (w : svn_world β) (str : svn_string_ptr) : svn_string_t :=
  w.strings.getD str ⟨[], 0⟩

/-- Modelled from the spec: `svn_string_appendbytes` of `svn_string.h` (not
under src/) appends bytes to the string object at `str`, in place. -/
def svn_string_appendbytes {β : Type} (str : svn_string_ptr) (bytes : List UInt8)
    (w : svn_world β) : svn_world β :=
  let old := svn_string_at w str
  { w with strings := w.strings.set str ⟨old.data ++ bytes, old.pool⟩ }

/-! ## The parser -/

/-- The C function `svn_make_vcdiff_parser`: allocate a vcdiff parser and fill
out its fields; the parser's buffer lives in a sub-pool of `pool`. -/
def svn_make_vcdiff_parser_fn {β : Type} (handler : svn_delta_handler_t β)
    (handler_baton : Nat) (pool : apr_pool_t) (w : svn_world β) :
    svn_vcdiff_parser_t β × svn_world β :=
  let (subpool, w1) := apr_make_sub_pool pool w
  let (buffer, w2) := svn_string_create [] subpool w1
  ({ consumer_func := handler, consumer_baton := handler_baton,
     pool := pool, subpool := subpool, buffer := buffer }, w2)

/-- Create a new window from the parser's sub-pool and send it off to the
consumer routine; on success create a new sub-pool and a new empty buffer so
that the parser can continue buffering. -/
def svn_vcdiff_send_window {β : Type} (parser : svn_vcdiff_parser_t β) (len : Nat)
    (w : svn_world β) : Option svn_error_t × svn_vcdiff_parser_t β × svn_world β :=
  let new_op : svn_delta_op_t := { op := svn_delta_action.svn_delta_new, offset := 0, length := len }
  let window : svn_delta_window_t :=
    { num_ops := 1, ops := [new_op], new := parser.buffer, my_pool := none }
  let r := parser.consumer_func w.strings window parser.consumer_baton w.baton
  let call : svn_delivery :=
    { window := window, payload := (svn_string_at w parser.buffer).data,
      region := parser.subpool, result := r.1 }
  let w1 : svn_world β := { w with baton := r.2, trace := w.trace ++ [call] }
  match r.1 with
  | some err =>
    (some (svn_quick_wrap_error err "svn_vcdiff_send_window: consumer_func choked."),
      parser, w1)
  | none =>
    let (subpool, w2) := apr_make_sub_pool parser.pool w1
    let (buffer, w3) := svn_string_create [] subpool w2
    (SVN_NO_ERROR, { parser with subpool := subpool, buffer := buffer }, w3)

/-- What can go wrong in `svn_vcdiff_parse` outside the C semantics of a
returned error. -/
inductive svn_fault where
  | read_outside_buffer (i : Nat) : svn_fault
  | loop_bound_exceeded : svn_fault
deriving DecidableEq, Repr

/-- The `do ... while (i < *len)` loop of `svn_vcdiff_parse`, started at offset
`i`.  `bound` limits the number of further iterations. -/
def svn_vcdiff_parse_loop {β : Type} (buffer : List UInt8) (len : Int) :
    Nat → Nat → svn_vcdiff_parser_t β → svn_world β →
      Except svn_fault (Option svn_error_t × svn_vcdiff_parser_t β × svn_world β)
  | bound, i, parser, w =>
    let next (parser : svn_vcdiff_parser_t β) (w : svn_world β) :=
      if ((i + 1 : Nat) : Int) < len then
        match bound with
        | 0 => Except.error svn_fault.loop_bound_exceeded
        | bound + 1 => svn_vcdiff_parse_loop buffer len bound (i + 1) parser w
      else
        Except.ok (SVN_NO_ERROR, parser, w)
    if (svn_string_at w parser.buffer).len = SVN_VCDIFF_WINDOW_SIZE then
      match svn_vcdiff_send_window parser SVN_VCDIFF_WINDOW_SIZE w with
      | (some err, parser, w) => Except.ok (some err, parser, w)
      | (none, parser, w) => next parser w
    else
      match buffer[i]? with
      | none => Except.error (svn_fault.read_outside_buffer i)
      | some c => next parser (svn_string_appendbytes parser.buffer [c] w)

/-- Parse another block of bytes: `buffer` is the caller's array and `len` the
value of `*len`.  The loop makes at most `max len 1` iterations. -/
def svn_vcdiff_parse {β : Type} (parser : svn_vcdiff_parser_t β) (buffer : List UInt8)
    (len : Int) (w : svn_world β) :
    Except svn_fault (Option svn_error_t × svn_vcdiff_parser_t β × svn_world β) :=
  svn_vcdiff_parse_loop buffer len len.toNat 0 parser w

/-- Send off whatever is in the parser's buffer as a window. -/
def svn_vcdiff_flush_buffer {β : Type} (parser : svn_vcdiff_parser_t β) (w : svn_world β) :
    Option svn_error_t × svn_vcdiff_parser_t β × svn_world β :=
  match svn_vcdiff_send_window parser (svn_string_at w parser.buffer).len w with
  | (some err, parser, w) => (some err, parser, w)
  | (none, parser, w) => (SVN_NO_ERROR, parser, w)

/-! ## Callers, consumers and observations used to state the properties -/

/-- The bytes currently held in the parser's buffer. -/
def svn_buffered {β : Type} (p : svn_vcdiff_parser_t β) (w : svn_world β) : List UInt8 :=
  (svn_string_at w p.buffer).data

/-- The window that `svn_vcdiff_send_window` builds for a parser and a length. -/
def svn_window_of {β : Type} (p : svn_vcdiff_parser_t β) (len : Nat) : svn_delta_window_t :=
  { num_ops := 1,
    ops := [{ op := svn_delta_action.svn_delta_new, offset := 0, length := len }],
    new := p.buffer, my_pool := none }

/-- The record of the consumer call that `svn_vcdiff_send_window` makes in a
given state. -/
def svn_call_of {β : Type} (p : svn_vcdiff_parser_t β) (len : Nat) (w : svn_world β) :
    svn_delivery :=
  { window := svn_window_of p len, payload := svn_buffered p w, region := p.subpool,
    result := (p.consumer_func w.strings (svn_window_of p len) p.consumer_baton w.baton).1 }

/-- One iteration of the loop of `svn_vcdiff_parse` with the byte it would read
already at hand. -/
def svn_vcdiff_parse_byte {β : Type} (p : svn_vcdiff_parser_t β) (w : svn_world β)
    (c : UInt8) : Option svn_error_t × svn_vcdiff_parser_t β × svn_world β :=
  if (svn_string_at w p.buffer).len = SVN_VCDIFF_WINDOW_SIZE then
    svn_vcdiff_send_window p SVN_VCDIFF_WINDOW_SIZE w
  else
    (none, p, svn_string_appendbytes p.buffer [c] w)

/-- The iterations of `svn_vcdiff_parse` over a list of bytes, stopping at the
first error; on the empty list nothing happens. -/
def svn_vcdiff_parse_bytes {β : Type} (p : svn_vcdiff_parser_t β) (w : svn_world β) :
    List UInt8 → Option svn_error_t × svn_vcdiff_parser_t β × svn_world β
  | [] => (none, p, w)
  | c :: cs =>
    match svn_vcdiff_parse_byte p w c with
    | (some e, p1, w1) => (some e, p1, w1)
    | (none, p1, w1) => svn_vcdiff_parse_bytes p1 w1 cs

/-- A caller that passes a list of blocks to `svn_vcdiff_parse` in succession,
each with its own length, and stops at the first error. -/
def svn_vcdiff_parse_chunks {β : Type} (p : svn_vcdiff_parser_t β) (w : svn_world β) :
    List (List UInt8) →
      Except svn_fault (Option svn_error_t × svn_vcdiff_parser_t β × svn_world β)
  | [] => Except.ok (SVN_NO_ERROR, p, w)
  | chunk :: rest =>
    match svn_vcdiff_parse p chunk (chunk.length : Int) w with
    | Except.ok (none, p1, w1) => svn_vcdiff_parse_chunks p1 w1 rest
    | r => r

/-- The state reached after the first `i` bytes of a block have been parsed
without error: the starting state for `i = 0`, and otherwise what
`svn_vcdiff_parse` returns on those `i` bytes. -/
def svn_state_after {β : Type} (p : svn_vcdiff_parser_t β) (w : svn_world β)
    (chunk : List UInt8) (i : Nat) (pi : svn_vcdiff_parser_t β) (wi : svn_world β) : Prop :=
  (i = 0 ∧ pi = p ∧ wi = w) ∨
  (0 < i ∧ svn_vcdiff_parse p (chunk.take i) (i : Int) w = Except.ok (none, pi, wi))

/-- A consumer routine that never returns an error. -/
def svn_accepting {β : Type} (handler : svn_delta_handler_t β) : Prop :=
  ∀ strings window baton state, (handler strings window baton state).1 = none

/-- The consumer that accepts every window and keeps no data. -/
def svn_accept_all : svn_delta_handler_t Unit :=
  fun _ _ _ state => (none, state)

/-- A consumer that counts its calls in its own data and returns the error
`e` on call number `n` (counting from 0), accepting every other window. -/
def svn_fail_on_call (n : Nat) (e : svn_error_t) : svn_delta_handler_t Nat :=
  fun _ _ _ count => (if count = n then some e else none, count + 1)

/-- What a caller can observe after a call: the returned error, the bytes in
the parser's buffer, and the consumer calls made so far. -/
structure svn_outcome where
  err : Option svn_error_t
  buffer : List UInt8
  trace : List svn_delivery
deriving DecidableEq, Repr

/-- The observation of a returned triple. -/
def svn_outcome_of {β : Type}
    (r : Option svn_error_t × svn_vcdiff_parser_t β × svn_world β) : svn_outcome :=
  { err := r.1, buffer := svn_buffered r.2.1 r.2.2, trace := r.2.2.trace }

/-- The observation of a result of `svn_vcdiff_parse`; `none` stands for a
fault. -/
def svn_parse_outcome {β : Type}
    (r : Except svn_fault (Option svn_error_t × svn_vcdiff_parser_t β × svn_world β)) :
    Option svn_outcome :=
  match r with
  | Except.ok x => some (svn_outcome_of x)
  | Except.error _ => none

/-- An empty world: no pool in use, no string allocated, no consumer call made. -/
def svn_empty_world {β : Type} (state : β) : svn_world β :=
  { next_pool := 0, strings := [], baton := state, trace := [] }

/-- The payloads of all consumer calls, oldest first, followed by the bytes in
the parser's buffer. -/
def svn_outcome.stream (o : svn_outcome) : List UInt8 :=
  (o.trace.map svn_delivery.payload).flatten ++ o.buffer

/-- A fresh parser with the accepting consumer, made in the empty world. -/
def svn_fresh : svn_vcdiff_parser_t Unit :=
  (svn_make_vcdiff_parser_fn svn_accept_all 0 0 (svn_empty_world ())).1

/-- The world in which the parser `svn_fresh` lives. -/
def svn_fresh_world : svn_world Unit :=
  (svn_make_vcdiff_parser_fn svn_accept_all 0 0 (svn_empty_world ())).2

/-- A fresh parser whose consumer accepts its first window and refuses the
second with the error `original 7 "refused"`; the consumer counts its calls
from 0. -/
def svn_refusing : svn_vcdiff_parser_t Nat :=
  (svn_make_vcdiff_parser_fn (svn_fail_on_call 1 (svn_error_t.original 7 "refused")) 0 0
    (svn_empty_world 0)).1

/-- The world in which `svn_refusing` lives. -/
def svn_refusing_world : svn_world Nat :=
  (svn_make_vcdiff_parser_fn (svn_fail_on_call 1 (svn_error_t.original 7 "refused")) 0 0
    (svn_empty_world 0)).2

/-- A fresh parser whose consumer refuses its first window with the error
`original 7 "refused"`, with the five bytes "abcde" already in its buffer. -/
def svn_choking : svn_vcdiff_parser_t Nat :=
  (svn_make_vcdiff_parser_fn (svn_fail_on_call 0 (svn_error_t.original 7 "refused")) 0 0
    (svn_empty_world 0)).1

/-- The world in which the parser `svn_choking` lives. -/
def svn_choking_world : svn_world Nat :=
  svn_string_appendbytes 0 [97, 98, 99, 100, 101]
    (svn_make_vcdiff_parser_fn (svn_fail_on_call 0 (svn_error_t.original 7 "refused")) 0 0
      (svn_empty_world 0)).2

/-- The world of `svn_fresh` after "abcde" has been buffered: the buffer of
`svn_fresh` is full. -/
def svn_full_world : svn_world Unit :=
  svn_string_appendbytes 0 [97, 98, 99, 100, 101] svn_fresh_world

/-- One call that a caller makes on a parser. -/
inductive svn_call where
  | ingest (chunk : List UInt8) : svn_call
  | flush : svn_call
deriving DecidableEq, Repr

/-- A caller that makes a list of calls on a parser in succession and goes on
whatever error a call returns; only a fault of `svn_vcdiff_parse` stops it. -/
def svn_run_calls {β : Type} (p : svn_vcdiff_parser_t β) (w : svn_world β) :
    List svn_call → Except svn_fault (svn_vcdiff_parser_t β × svn_world β)
  | [] => Except.ok (p, w)
  | svn_call.ingest chunk :: rest =>
    match svn_vcdiff_parse p chunk (chunk.length : Int) w with
    | Except.ok (_, p1, w1) => svn_run_calls p1 w1 rest
    | Except.error f => Except.error f
  | svn_call.flush :: rest =>
    svn_run_calls (svn_vcdiff_flush_buffer p w).2.1 (svn_vcdiff_flush_buffer p w).2.2 rest

/-- Modelled from the spec: `apr_destroy_pool` (APR, not under src/) frees a
region and everything allocated from it; `live` lists the pools in use. -/
def apr_destroy_pool (pool : apr_pool_t) (live : List apr_pool_t) : List apr_pool_t :=
  live.filter (fun q => q ≠ pool)

/-- Free the entire sub-pool which contains the window: the pool destroyed is
the one in the window's `my_pool` field.  When that field was never assigned
the call has no defined result, which is `none`. -/
def svn_free_delta_window (window : svn_delta_window_t) (live : List apr_pool_t) :
    Option (List apr_pool_t) :=
  match window.my_pool with
  | some pool => some (apr_destroy_pool pool live)
  | none => none

/-- The hand-off condition on a state, for the consumer calls `ds` made since
the parser was created.  The parser's sub-pool and buffer are allocated, the
buffer lives in the sub-pool, every window handed over refers to an allocated
pool and string, and every window the consumer accepted has a pool and a
payload string other than the parser's current ones, the string still holding
the bytes it held when it was handed over. -/
def svn_handed_off {β : Type} (p : svn_vcdiff_parser_t β) (w : svn_world β)
    (ds : List svn_delivery) : Prop :=
  p.subpool < w.next_pool ∧ p.buffer < w.strings.length ∧
  (svn_string_at w p.buffer).pool = p.subpool ∧
  ∀ d ∈ ds,
    d.region < w.next_pool ∧ d.window.new < w.strings.length ∧
    (d.result = none →
      d.region ≠ p.subpool ∧ d.window.new ≠ p.buffer ∧
      svn_string_at w d.window.new = ⟨d.payload, d.region⟩)

/-! ## The message catalog lookup of `subversion/libsvn_subr/intl.c` -/

/-- One entry of a catalog index (`message_entry_t`): the length of a string
and its offset in the mapped file. -/
structure message_entry_t where
  len : Nat
  offset : Nat
deriving DecidableEq, Repr

/-- A message table (`message_table_t`).  `map` gives the string that
`apr_mmap_offset` finds at an offset of the mapped file, `num_strings` is an
`apr_uint32_t`, and `original` and `translated` are the two index arrays. -/
structure message_table_t (α : Type) where
  map : Nat → α
  num_strings : Nat
  original : List message_entry_t
  translated : List message_entry_t

/-- What can go wrong in `message_table_gettext` outside the C semantics of a
returned string: an index array is read outside its entries, or the loop is
still running when the number of iterations allowed is used up. -/
inductive message_fault where
  | index_outside (m : Nat) : message_fault
  | loop_bound_exceeded : message_fault
deriving DecidableEq, Repr

/-- The `while (1)` loop of `message_table_gettext` with the bounds `a` and
`b`, both `apr_uint32_t`, so every sum and difference is taken modulo 2^32.
The first argument limits the number of iterations.  `apr_strnatcmp` (APR, not
under src/) is a parameter. -/
def message_table_gettext_loop {α : Type} (apr_strnatcmp : α → α → Int)
    (mt : message_table_t α) (msgid : α) : Nat → Nat → Nat → Except message_fault α
  | 0, _, _ => Except.error message_fault.loop_bound_exceeded
  | bound + 1, a, b =>
    let m := (a + b) % 4294967296 / 2
    match mt.original[m]? with
    | none => Except.error (message_fault.index_outside m)
    | some entry =>
      let i := apr_strnatcmp msgid (mt.map entry.offset)
      if i = 0 then
        match mt.translated[m]? with
        | none => Except.error (message_fault.index_outside m)
        | some found => Except.ok (mt.map found.offset)
      else if a = b then
        Except.ok msgid
      else if i < 0 then
        message_table_gettext_loop apr_strnatcmp mt msgid bound a ((m + 4294967295) % 4294967296)
      else
        message_table_gettext_loop apr_strnatcmp mt msgid bound ((m + 1) % 4294967296) b

/-- The lookup `message_table_gettext`: `a = 0`, `b = mt->num_strings - 1` in
`apr_uint32_t`, then the loop, allowed `bound` iterations. -/
def message_table_gettext {α : Type} (apr_strnatcmp : α → α → Int) (mt : message_table_t α)
    (msgid : α) (bound : Nat) : Except message_fault α :=
  message_table_gettext_loop apr_strnatcmp mt msgid bound 0
    ((mt.num_strings + 4294967295) % 4294967296)

/-- A comparison of strings that are identified with natural numbers, by
the difference of the numbers. -/
def svn_rank_cmp (x y : Nat) : Int := (x : Int) - (y : Int)

/-- A catalog whose strings are identified with numbers, the string at an
offset being the offset: the original strings are the given numbers and the
translation of `x` is `x + 100`. -/
def svn_rank_table (originals : List Nat) : message_table_t Nat :=
  { map := fun offset => offset,
    num_strings := originals.length,
    original := originals.map (fun x => { len := 1, offset := x }),
    translated := originals.map (fun x => { len := 1, offset := x + 100 }) }

/-! ## Basic facts about the string memory -/

theorem svn_string_at_create {β : Type} (cstring : List UInt8) (pool : apr_pool_t)
    (w : svn_world β) :
    svn_string_at (svn_string_create cstring pool w).2 (svn_string_create cstring pool w).1
      = ⟨cstring, pool⟩ := by
  simp [svn_string_at, svn_string_create, List.getD_eq_getElem?_getD]

theorem svn_buffered_append_valid {β : Type} (p : svn_vcdiff_parser_t β) (w : svn_world β)
    (bytes : List UInt8) (h : p.buffer < w.strings.length) :
    svn_buffered p (svn_string_appendbytes p.buffer bytes w) = svn_buffered p w ++ bytes := by
  simp [svn_buffered, svn_string_at, svn_string_appendbytes, List.getD_eq_getElem?_getD, h]

theorem svn_buffered_append_invalid {β : Type} (p : svn_vcdiff_parser_t β) (w : svn_world β)
    (bytes : List UInt8) (h : ¬ p.buffer < w.strings.length) :
    svn_buffered p (svn_string_appendbytes p.buffer bytes w) = svn_buffered p w := by
  have h2 : w.strings.length ≤ p.buffer := Nat.le_of_not_lt h
  have h3 : ∀ a : svn_string_t, (w.strings.set p.buffer a)[p.buffer]? = none :=
    fun a => List.getElem?_eq_none (by simpa using h2)
  simp [svn_buffered, svn_string_at, svn_string_appendbytes, List.getD_eq_getElem?_getD,
    List.getElem?_eq_none h2, h3]

theorem svn_appendbytes_length {β : Type} (str : svn_string_ptr) (bytes : List UInt8)
    (w : svn_world β) :
    (svn_string_appendbytes str bytes w).strings.length = w.strings.length := by
  simp [svn_string_appendbytes]

theorem svn_appendbytes_trace {β : Type} (str : svn_string_ptr) (bytes : List UInt8)
    (w : svn_world β) :
    (svn_string_appendbytes str bytes w).trace = w.trace := rfl

/-! ## What `svn_vcdiff_send_window` returns -/

theorem svn_send_window_ok {β : Type} (p : svn_vcdiff_parser_t β) (len : Nat)
    (w : svn_world β)
    (h : (p.consumer_func w.strings (svn_window_of p len) p.consumer_baton w.baton).1 = none) :
    svn_vcdiff_send_window p len w =
      (none,
       { p with subpool := w.next_pool, buffer := w.strings.length },
       { next_pool := w.next_pool + 1,
         strings := w.strings ++ [⟨[], w.next_pool⟩],
         baton := (p.consumer_func w.strings (svn_window_of p len) p.consumer_baton w.baton).2,
         trace := w.trace ++ [svn_call_of p len w] }) := by
  unfold svn_vcdiff_send_window
  simp only [svn_window_of] at h
  simp only [h]
  simp [apr_make_sub_pool, svn_string_create, SVN_NO_ERROR, svn_call_of, svn_window_of,
    svn_buffered, h]

theorem svn_send_window_err {β : Type} (p : svn_vcdiff_parser_t β) (len : Nat)
    (w : svn_world β) (e : svn_error_t)
    (h : (p.consumer_func w.strings (svn_window_of p len) p.consumer_baton w.baton).1 = some e) :
    svn_vcdiff_send_window p len w =
      (some (svn_quick_wrap_error e "svn_vcdiff_send_window: consumer_func choked."),
       p,
       { w with
         baton := (p.consumer_func w.strings (svn_window_of p len) p.consumer_baton w.baton).2,
         trace := w.trace ++ [svn_call_of p len w] }) := by
  unfold svn_vcdiff_send_window
  simp only [svn_window_of] at h
  simp only [h]
  simp [svn_call_of, svn_window_of, svn_buffered, h]

/-! ## The loop of `svn_vcdiff_parse` on a block of known length -/

theorem svn_parse_loop_eq {β : Type} (buffer : List UInt8) :
    ∀ (bound i : Nat) (p : svn_vcdiff_parser_t β) (w : svn_world β),
      i < buffer.length → buffer.length ≤ i + 1 + bound →
      svn_vcdiff_parse_loop buffer (buffer.length : Int) bound i p w
        = Except.ok (svn_vcdiff_parse_bytes p w (buffer.drop i)) := by
  intro bound
  induction bound with
  | zero =>
    intro i p w hi hb
    have hlast : ¬ (((i + 1 : Nat) : Int) < (buffer.length : Int)) := by
      have : buffer.length ≤ i + 1 := by omega
      exact_mod_cast Nat.not_lt.mpr this
    have hdrop : buffer.drop i = [buffer[i]] := by
      rw [List.drop_eq_getElem_cons hi]
      have : buffer.drop (i + 1) = [] := List.drop_eq_nil_of_le (by omega)
      rw [this]
    rw [hdrop]
    unfold svn_vcdiff_parse_loop
    simp only [svn_vcdiff_parse_bytes, svn_vcdiff_parse_byte, List.getElem?_eq_getElem hi]
    by_cases h5 : (svn_string_at w p.buffer).len = SVN_VCDIFF_WINDOW_SIZE
    · simp only [h5, if_true]
      rcases hs : svn_vcdiff_send_window p SVN_VCDIFF_WINDOW_SIZE w with ⟨e, p1, w1⟩
      cases e with
      | none => simp [SVN_NO_ERROR]; omega
      | some e => simp
    · simp [h5, SVN_NO_ERROR]; omega
  | succ bound ih =>
    intro i p w hi hb
    rw [List.drop_eq_getElem_cons hi]
    unfold svn_vcdiff_parse_loop
    simp only [svn_vcdiff_parse_bytes, svn_vcdiff_parse_byte, List.getElem?_eq_getElem hi]
    by_cases hlt : i + 1 < buffer.length
    · have hlt2 : (((i + 1 : Nat) : Int) < (buffer.length : Int)) := by exact_mod_cast hlt
      by_cases h5 : (svn_string_at w p.buffer).len = SVN_VCDIFF_WINDOW_SIZE
      · simp only [h5, if_true]
        rcases hs : svn_vcdiff_send_window p SVN_VCDIFF_WINDOW_SIZE w with ⟨e, p1, w1⟩
        cases e
        · simp only [hlt2, if_true]
          exact ih (i + 1) p1 w1 hlt (by omega)
        · simp
      · simp only [h5, if_false, hlt2, if_true]
        exact ih (i + 1) p _ hlt (by omega)
    · have hlast : ¬ (((i + 1 : Nat) : Int) < (buffer.length : Int)) := by exact_mod_cast hlt
      have : buffer.drop (i + 1) = [] := List.drop_eq_nil_of_le (by omega)
      rw [this]
      by_cases h5 : (svn_string_at w p.buffer).len = SVN_VCDIFF_WINDOW_SIZE
      · simp only [h5, if_true]
        rcases hs : svn_vcdiff_send_window p SVN_VCDIFF_WINDOW_SIZE w with ⟨e, p1, w1⟩
        cases e with
        | none => simp [SVN_NO_ERROR, svn_vcdiff_parse_bytes]; intro h; omega
        | some e => simp
      · simp [h5, SVN_NO_ERROR, svn_vcdiff_parse_bytes]; intro h; omega

theorem svn_parse_eq_bytes {β : Type} (p : svn_vcdiff_parser_t β) (w : svn_world β)
    (chunk : List UInt8) (hne : chunk ≠ []) :
    svn_vcdiff_parse p chunk (chunk.length : Int) w
      = Except.ok (svn_vcdiff_parse_bytes p w chunk) := by
  have hpos : 0 < chunk.length := List.length_pos.mpr hne
  unfold svn_vcdiff_parse
  have := svn_parse_loop_eq chunk (chunk.length : Int).toNat 0 p w hpos (by simp)
  simpa using this


theorem svn_parse_bytes_append {β : Type} (a b : List UInt8) :
    ∀ (p : svn_vcdiff_parser_t β) (w : svn_world β),
      svn_vcdiff_parse_bytes p w (a ++ b) =
        match svn_vcdiff_parse_bytes p w a with
        | (some e, p1, w1) => (some e, p1, w1)
        | (none, p1, w1) => svn_vcdiff_parse_bytes p1 w1 b := by
  induction a with
  | nil => intro p w; simp [svn_vcdiff_parse_bytes]
  | cons c cs ih =>
    intro p w
    simp only [List.cons_append, svn_vcdiff_parse_bytes]
    rcases hs : svn_vcdiff_parse_byte p w c with ⟨e, p1, w1⟩
    cases e with
    | none => simpa using ih p1 w1
    | some e => simp

theorem svn_parse_chunks_eq_bytes {β : Type} (chunks : List (List UInt8))
    (hne : ∀ c ∈ chunks, c ≠ []) :
    ∀ (p : svn_vcdiff_parser_t β) (w : svn_world β),
      svn_vcdiff_parse_chunks p w chunks = Except.ok (svn_vcdiff_parse_bytes p w chunks.flatten) := by
  induction chunks with
  | nil => intro p w; simp [svn_vcdiff_parse_chunks, svn_vcdiff_parse_bytes, SVN_NO_ERROR]
  | cons c cs ih =>
    intro p w
    have hc : c ≠ [] := hne c (List.mem_cons_self _ _)
    have hcs : ∀ x ∈ cs, x ≠ [] := fun x hx => hne x (List.mem_cons_of_mem _ hx)
    simp only [svn_vcdiff_parse_chunks, svn_parse_eq_bytes p w c hc, List.flatten_cons,
      svn_parse_bytes_append]
    rcases hs : svn_vcdiff_parse_bytes p w c with ⟨e, p1, w1⟩
    cases e with
    | none => simpa using ih hcs p1 w1
    | some e => simp

theorem svn_state_after_iff {β : Type} (p : svn_vcdiff_parser_t β) (w : svn_world β)
    (chunk : List UInt8) (i : Nat) (hi : i ≤ chunk.length)
    (pi : svn_vcdiff_parser_t β) (wi : svn_world β) :
    svn_state_after p w chunk i pi wi ↔
      svn_vcdiff_parse_bytes p w (chunk.take i) = (none, pi, wi) := by
  unfold svn_state_after
  rcases Nat.eq_zero_or_pos i with h0 | hpos
  · subst h0
    simp only [List.take_zero, svn_vcdiff_parse_bytes, true_and, lt_self_iff_false, false_and,
      or_false, Prod.mk.injEq]
    constructor
    · rintro ⟨h1, h2⟩; exact ⟨h1.symm, h2.symm⟩
    · rintro ⟨h1, h2⟩; exact ⟨h1.symm, h2.symm⟩
  · have hlen : (chunk.take i).length = i := by simp [List.length_take, hi]
    have hne : chunk.take i ≠ [] := by
      intro h; rw [h] at hlen; simp at hlen; omega
    have key := svn_parse_eq_bytes p w (chunk.take i) hne
    rw [hlen] at key
    rw [key]
    constructor
    · rintro (⟨h0, _⟩ | ⟨_, h⟩)
      · omega
      · simpa using h
    · intro h
      right
      exact ⟨hpos, by rw [h]⟩


/-! ## Runs with a consumer that accepts every window -/

theorem svn_send_window_accept {β : Type} (p : svn_vcdiff_parser_t β) (len : Nat)
    (w : svn_world β)
    (h : (p.consumer_func w.strings (svn_window_of p len) p.consumer_baton w.baton).1 = none) :
    ∃ p1 w1, svn_vcdiff_send_window p len w = (none, p1, w1) ∧
      p1.consumer_func = p.consumer_func ∧ p1.buffer < w1.strings.length ∧
      svn_buffered p1 w1 = [] ∧ w1.trace = w.trace ++ [svn_call_of p len w] := by
  refine ⟨_, _, svn_send_window_ok p len w h, rfl, ?_, ?_, rfl⟩
  · simp
  · simp [svn_buffered, svn_string_at, List.getD_eq_getElem?_getD]

theorem svn_parse_bytes_count {β : Type} (s : List UInt8) :
    ∀ (p : svn_vcdiff_parser_t β) (w : svn_world β),
      svn_accepting p.consumer_func → p.buffer < w.strings.length →
      (svn_buffered p w).length ≤ 5 →
      ∃ p1 w1 ds, svn_vcdiff_parse_bytes p w s = (none, p1, w1) ∧
        w1.trace = w.trace ++ ds ∧
        ds.length = ((svn_buffered p w).length + s.length) / 6 ∧
        (svn_buffered p1 w1).length = ((svn_buffered p w).length + s.length) % 6 ∧
        (∀ d ∈ ds, d.payload.length = 5) ∧
        ((svn_buffered p w).length + s.length ≤ 5 → svn_buffered p1 w1 = svn_buffered p w ++ s) := by
  induction s with
  | nil =>
    intro p w _ _ hcap
    refine ⟨p, w, [], rfl, by simp, ?_, ?_, by simp, by simp⟩
    · simp only [List.length_nil, Nat.add_zero]; omega
    · simp only [List.length_nil, Nat.add_zero]; omega
  | cons c t ih =>
    intro p w hacc hvalid hcap
    simp only [svn_vcdiff_parse_bytes, svn_vcdiff_parse_byte]
    by_cases h5 : (svn_string_at w p.buffer).len = SVN_VCDIFF_WINDOW_SIZE
    · have hlen : (svn_buffered p w).length = 5 := h5
      obtain ⟨pc, wc, hsend, hfun, hvc, hbc, htc⟩ :=
        svn_send_window_accept p SVN_VCDIFF_WINDOW_SIZE w (hacc _ _ _ _)
      rw [if_pos h5, hsend]
      simp only []
      obtain ⟨p1, w1, ds, hrun, htr, hcount, hbuf, hpay, -⟩ :=
        ih pc wc (by rw [hfun]; exact hacc) hvc (by rw [hbc]; simp)
      rw [hbc] at hcount hbuf
      refine ⟨p1, w1, svn_call_of p SVN_VCDIFF_WINDOW_SIZE w :: ds, hrun, ?_, ?_, ?_, ?_, ?_⟩
      · rw [htr, htc]; simp
      · simp only [List.length_cons, List.length_nil] at hcount ⊢; omega
      · simp only [List.length_cons, List.length_nil] at hbuf ⊢; omega
      · intro d hd
        rcases List.mem_cons.mp hd with rfl | hd
        · exact hlen
        · exact hpay d hd
      · intro h; simp only [List.length_cons] at h; omega
    · have hlen : (svn_buffered p w).length ≠ 5 := h5
      rw [if_neg h5]
      simp only []
      have happ := svn_buffered_append_valid p w [c] hvalid
      obtain ⟨p1, w1, ds, hrun, htr, hcount, hbuf, hpay, hall⟩ :=
        ih p (svn_string_appendbytes p.buffer [c] w) hacc
          (by rw [svn_appendbytes_length]; exact hvalid) (by rw [happ]; simp; omega)
      rw [happ] at hcount hbuf hall
      refine ⟨p1, w1, ds, hrun, ?_, ?_, ?_, hpay, ?_⟩
      · rw [htr, svn_appendbytes_trace]
      · simp only [List.length_append, List.length_cons, List.length_nil] at hcount ⊢
        rw [hcount]; congr 1; omega
      · simp only [List.length_append, List.length_cons, List.length_nil] at hbuf ⊢
        rw [hbuf]; congr 1; omega
      · intro h
        simp only [List.length_cons] at h
        rw [hall (by simp only [List.length_append, List.length_cons, List.length_nil]; omega)]
        simp

theorem svn_make_parser_eq {β : Type} (handler : svn_delta_handler_t β) (handler_baton : Nat)
    (pool : apr_pool_t) (w : svn_world β) :
    svn_make_vcdiff_parser_fn handler handler_baton pool w =
      ({ consumer_func := handler, consumer_baton := handler_baton, pool := pool,
         subpool := w.next_pool, buffer := w.strings.length },
       { w with next_pool := w.next_pool + 1, strings := w.strings ++ [⟨[], w.next_pool⟩] }) := rfl

theorem svn_make_parser_buffered {β : Type} (handler : svn_delta_handler_t β)
    (handler_baton : Nat) (pool : apr_pool_t) (w : svn_world β) :
    svn_buffered (svn_make_vcdiff_parser_fn handler handler_baton pool w).1
      (svn_make_vcdiff_parser_fn handler handler_baton pool w).2 = [] := by
  simp [svn_make_parser_eq, svn_buffered, svn_string_at, List.getD_eq_getElem?_getD]

theorem svn_parse_bytes_bounded {β : Type} (s : List UInt8) :
    ∀ (p : svn_vcdiff_parser_t β) (w : svn_world β),
      svn_accepting p.consumer_func → (svn_buffered p w).length ≤ 5 →
      ∃ p1 w1, svn_vcdiff_parse_bytes p w s = (none, p1, w1) ∧
        (svn_buffered p1 w1).length ≤ 5 := by
  induction s with
  | nil => intro p w _ hcap; exact ⟨p, w, rfl, hcap⟩
  | cons c t ih =>
    intro p w hacc hcap
    simp only [svn_vcdiff_parse_bytes, svn_vcdiff_parse_byte]
    by_cases h5 : (svn_string_at w p.buffer).len = SVN_VCDIFF_WINDOW_SIZE
    · obtain ⟨pc, wc, hsend, hfun, -, hbc, -⟩ :=
        svn_send_window_accept p SVN_VCDIFF_WINDOW_SIZE w (hacc _ _ _ _)
      rw [if_pos h5, hsend]
      simp only []
      exact ih pc wc (by rw [hfun]; exact hacc) (by rw [hbc]; simp)
    · have hlen : (svn_buffered p w).length ≠ 5 := h5
      rw [if_neg h5]
      simp only []
      refine ih p _ hacc ?_
      by_cases hvalid : p.buffer < w.strings.length
      · rw [svn_buffered_append_valid p w [c] hvalid]; simp; omega
      · rw [svn_buffered_append_invalid p w [c] hvalid]; exact hcap

/-! ## The consumer calls made by a run, for any consumer -/

theorem svn_send_window_fail {β : Type} (p : svn_vcdiff_parser_t β) (len : Nat)
    (w : svn_world β) (e : svn_error_t) (p1 : svn_vcdiff_parser_t β) (w1 : svn_world β)
    (h : svn_vcdiff_send_window p len w = (some e, p1, w1)) :
    ∃ ce, (svn_call_of p len w).result = some ce ∧
      e = svn_quick_wrap_error ce "svn_vcdiff_send_window: consumer_func choked." ∧
      p1 = p ∧ w1.strings = w.strings ∧ w1.next_pool = w.next_pool ∧
      w1.trace = w.trace ++ [svn_call_of p len w] := by
  cases hr : (p.consumer_func w.strings (svn_window_of p len) p.consumer_baton w.baton).1 with
  | none =>
    rw [svn_send_window_ok p len w hr] at h
    simp at h
  | some ce =>
    rw [svn_send_window_err p len w ce hr] at h
    simp only [Prod.mk.injEq, Option.some.injEq] at h
    obtain ⟨he, hp, hw⟩ := h
    refine ⟨ce, hr, he.symm, hp.symm, ?_, ?_, ?_⟩ <;> rw [← hw]

theorem svn_send_window_pass {β : Type} (p : svn_vcdiff_parser_t β) (len : Nat)
    (w : svn_world β) (p1 : svn_vcdiff_parser_t β) (w1 : svn_world β)
    (h : svn_vcdiff_send_window p len w = (none, p1, w1)) :
    (svn_call_of p len w).result = none ∧
      p1 = { p with subpool := w.next_pool, buffer := w.strings.length } ∧
      w1.strings = w.strings ++ [⟨[], w.next_pool⟩] ∧ w1.next_pool = w.next_pool + 1 ∧
      w1.trace = w.trace ++ [svn_call_of p len w] := by
  cases hr : (p.consumer_func w.strings (svn_window_of p len) p.consumer_baton w.baton).1 with
  | none =>
    rw [svn_send_window_ok p len w hr] at h
    simp only [Prod.mk.injEq, true_and] at h
    obtain ⟨hp, hw⟩ := h
    refine ⟨hr, hp.symm, ?_, ?_, ?_⟩ <;> rw [← hw]
  | some ce =>
    rw [svn_send_window_err p len w ce hr] at h
    simp at h

theorem svn_parse_bytes_cons_take {β : Type} (p p1 : svn_vcdiff_parser_t β)
    (w w1 : svn_world β) (c : UInt8) (t : List UInt8) (j : Nat)
    (h : svn_vcdiff_parse_byte p w c = (none, p1, w1)) :
    svn_vcdiff_parse_bytes p w ((c :: t).take (j + 1)) = svn_vcdiff_parse_bytes p1 w1 (t.take j) := by
  simp only [List.take_succ_cons, svn_vcdiff_parse_bytes, h]

theorem svn_parse_bytes_calls {β : Type} (s : List UInt8) :
    ∀ (p : svn_vcdiff_parser_t β) (w : svn_world β),
      ∃ ds, (svn_vcdiff_parse_bytes p w s).2.2.trace = w.trace ++ ds ∧
        ∀ d ∈ ds, ∃ i pi wi, i < s.length ∧
          svn_vcdiff_parse_bytes p w (s.take i) = (none, pi, wi) ∧
          (svn_buffered pi wi).length = SVN_VCDIFF_WINDOW_SIZE ∧
          d = svn_call_of pi SVN_VCDIFF_WINDOW_SIZE wi := by
  induction s with
  | nil => intro p w; exact ⟨[], by simp [svn_vcdiff_parse_bytes], by simp⟩
  | cons c t ih =>
    intro p w
    rcases hstep : svn_vcdiff_parse_byte p w c with ⟨e, p1, w1⟩
    have hstep2 := hstep
    unfold svn_vcdiff_parse_byte at hstep2
    by_cases h5 : (svn_string_at w p.buffer).len = SVN_VCDIFF_WINDOW_SIZE
    · rw [if_pos h5] at hstep2
      have hnow : ∃ i pi wi, i < (c :: t).length ∧
          svn_vcdiff_parse_bytes p w ((c :: t).take i) = (none, pi, wi) ∧
          (svn_buffered pi wi).length = SVN_VCDIFF_WINDOW_SIZE ∧
          svn_call_of p SVN_VCDIFF_WINDOW_SIZE w = svn_call_of pi SVN_VCDIFF_WINDOW_SIZE wi :=
        ⟨0, p, w, by simp, by simp [svn_vcdiff_parse_bytes], h5, rfl⟩
      cases e with
      | some err =>
        obtain ⟨ce, -, -, -, -, -, htr⟩ := svn_send_window_fail p _ w err p1 w1 hstep2
        refine ⟨[svn_call_of p SVN_VCDIFF_WINDOW_SIZE w], ?_, ?_⟩
        · simp only [svn_vcdiff_parse_bytes, hstep]; exact htr
        · intro d hd
          rw [List.mem_singleton.mp hd]
          exact hnow
      | none =>
        obtain ⟨-, -, -, -, htr⟩ := svn_send_window_pass p _ w p1 w1 hstep2
        obtain ⟨ds, hds, hall⟩ := ih p1 w1
        refine ⟨svn_call_of p SVN_VCDIFF_WINDOW_SIZE w :: ds, ?_, ?_⟩
        · simp only [svn_vcdiff_parse_bytes, hstep]; rw [hds, htr]; simp
        · intro d hd
          rcases List.mem_cons.mp hd with rfl | hd
          · exact hnow
          · obtain ⟨j, pi, wi, hj, hrun, hlen, hd⟩ := hall d hd
            exact ⟨j + 1, pi, wi, by simp; omega,
              by rw [svn_parse_bytes_cons_take p p1 w w1 c t j hstep]; exact hrun, hlen, hd⟩
    · rw [if_neg h5] at hstep2
      simp only [Prod.mk.injEq] at hstep2
      obtain ⟨he, hp, hw⟩ := hstep2
      subst he
      obtain ⟨ds, hds, hall⟩ := ih p1 w1
      refine ⟨ds, ?_, ?_⟩
      · simp only [svn_vcdiff_parse_bytes, hstep]; rw [hds, ← hw, svn_appendbytes_trace]
      · intro d hd
        obtain ⟨j, pi, wi, hj, hrun, hlen, hd⟩ := hall d hd
        exact ⟨j + 1, pi, wi, by simp; omega,
          by rw [svn_parse_bytes_cons_take p p1 w w1 c t j hstep]; exact hrun, hlen, hd⟩

theorem svn_parse_bytes_error {β : Type} (s : List UInt8) :
    ∀ (p : svn_vcdiff_parser_t β) (w : svn_world β) (e : svn_error_t)
      (p2 : svn_vcdiff_parser_t β) (w2 : svn_world β),
      svn_vcdiff_parse_bytes p w s = (some e, p2, w2) →
      ∃ i pi wi, i < s.length ∧
        svn_vcdiff_parse_bytes p w (s.take i) = (none, pi, wi) ∧
        (svn_buffered pi wi).length = SVN_VCDIFF_WINDOW_SIZE ∧
        svn_vcdiff_send_window pi SVN_VCDIFF_WINDOW_SIZE wi = (some e, p2, w2) := by
  induction s with
  | nil => intro p w e p2 w2 h; simp [svn_vcdiff_parse_bytes] at h
  | cons c t ih =>
    intro p w e p2 w2 h
    rcases hstep : svn_vcdiff_parse_byte p w c with ⟨e1, p1, w1⟩
    simp only [svn_vcdiff_parse_bytes, hstep] at h
    cases e1 with
    | some err =>
      simp only [Prod.mk.injEq, Option.some.injEq] at h
      obtain ⟨he, hp, hw⟩ := h
      subst he hp hw
      unfold svn_vcdiff_parse_byte at hstep
      by_cases h5 : (svn_string_at w p.buffer).len = SVN_VCDIFF_WINDOW_SIZE
      · rw [if_pos h5] at hstep
        exact ⟨0, p, w, by simp, by simp [svn_vcdiff_parse_bytes], h5, hstep⟩
      · rw [if_neg h5] at hstep
        simp at hstep
    | none =>
      obtain ⟨j, pi, wi, hj, hrun, hlen, hsend⟩ := ih p1 w1 e p2 w2 h
      exact ⟨j + 1, pi, wi, by simp; omega,
        by rw [svn_parse_bytes_cons_take p p1 w w1 c t j hstep]; exact hrun, hlen, hsend⟩

theorem svn_parse_bytes_ok_results {β : Type} (s : List UInt8) :
    ∀ (p : svn_vcdiff_parser_t β) (w : svn_world β)
      (p2 : svn_vcdiff_parser_t β) (w2 : svn_world β),
      svn_vcdiff_parse_bytes p w s = (none, p2, w2) →
      ∃ ds, w2.trace = w.trace ++ ds ∧ ∀ d ∈ ds, d.result = none := by
  induction s with
  | nil =>
    intro p w p2 w2 h
    simp only [svn_vcdiff_parse_bytes, Prod.mk.injEq, true_and] at h
    exact ⟨[], by rw [← h.2]; simp, by simp⟩
  | cons c t ih =>
    intro p w p2 w2 h
    rcases hstep : svn_vcdiff_parse_byte p w c with ⟨e1, p1, w1⟩
    simp only [svn_vcdiff_parse_bytes, hstep] at h
    cases e1 with
    | some err => simp at h
    | none =>
      obtain ⟨ds, hds, hall⟩ := ih p1 w1 p2 w2 h
      unfold svn_vcdiff_parse_byte at hstep
      by_cases h5 : (svn_string_at w p.buffer).len = SVN_VCDIFF_WINDOW_SIZE
      · rw [if_pos h5] at hstep
        obtain ⟨hres, -, -, -, htr⟩ := svn_send_window_pass p _ w p1 w1 hstep
        refine ⟨svn_call_of p SVN_VCDIFF_WINDOW_SIZE w :: ds, by rw [hds, htr]; simp, ?_⟩
        intro d hd
        rcases List.mem_cons.mp hd with rfl | hd
        · exact hres
        · exact hall d hd
      · rw [if_neg h5] at hstep
        simp only [Prod.mk.injEq, true_and] at hstep
        refine ⟨ds, by rw [hds, ← hstep.2, svn_appendbytes_trace], hall⟩

/-! ## Flushing is sending a window of the buffer's length -/

theorem svn_flush_eq_send {β : Type} (p : svn_vcdiff_parser_t β) (w : svn_world β) :
    svn_vcdiff_flush_buffer p w = svn_vcdiff_send_window p (svn_buffered p w).length w := by
  unfold svn_vcdiff_flush_buffer
  rcases hs : svn_vcdiff_send_window p (svn_string_at w p.buffer).len w with ⟨e, p1, w1⟩
  have hs2 : svn_vcdiff_send_window p (svn_buffered p w).length w = (e, p1, w1) := hs
  rw [hs2]
  cases e <;> rfl

theorem svn_send_window_cases {β : Type} (p : svn_vcdiff_parser_t β) (len : Nat)
    (w : svn_world β) :
    ((svn_call_of p len w).result = none ∧
      svn_vcdiff_send_window p len w =
        (none,
         { p with subpool := w.next_pool, buffer := w.strings.length },
         { next_pool := w.next_pool + 1,
           strings := w.strings ++ [⟨[], w.next_pool⟩],
           baton := (p.consumer_func w.strings (svn_window_of p len) p.consumer_baton w.baton).2,
           trace := w.trace ++ [svn_call_of p len w] })) ∨
    (∃ ce, (svn_call_of p len w).result = some ce ∧
      svn_vcdiff_send_window p len w =
        (some (svn_quick_wrap_error ce "svn_vcdiff_send_window: consumer_func choked."),
         p,
         { w with
           baton := (p.consumer_func w.strings (svn_window_of p len) p.consumer_baton w.baton).2,
           trace := w.trace ++ [svn_call_of p len w] })) := by
  cases hr : (p.consumer_func w.strings (svn_window_of p len) p.consumer_baton w.baton).1 with
  | none => exact Or.inl ⟨hr, svn_send_window_ok p len w hr⟩
  | some ce => exact Or.inr ⟨ce, hr, svn_send_window_err p len w ce hr⟩

/-! ## The capacity bound, for any consumer -/

theorem svn_send_window_bounded {β : Type} (p : svn_vcdiff_parser_t β) (len : Nat)
    (w : svn_world β) (hcap : (svn_buffered p w).length ≤ 5) :
    (svn_buffered (svn_vcdiff_send_window p len w).2.1
      (svn_vcdiff_send_window p len w).2.2).length ≤ 5 := by
  rcases svn_send_window_cases p len w with ⟨-, hs⟩ | ⟨ce, -, hs⟩
  · rw [hs]; simp [svn_buffered, svn_string_at, List.getD_eq_getElem?_getD]
  · rw [hs]; exact hcap

theorem svn_parse_byte_bounded {β : Type} (p : svn_vcdiff_parser_t β) (w : svn_world β)
    (c : UInt8) (hcap : (svn_buffered p w).length ≤ 5) :
    (svn_buffered (svn_vcdiff_parse_byte p w c).2.1 (svn_vcdiff_parse_byte p w c).2.2).length
      ≤ 5 := by
  unfold svn_vcdiff_parse_byte
  by_cases h5 : (svn_string_at w p.buffer).len = SVN_VCDIFF_WINDOW_SIZE
  · rw [if_pos h5]; exact svn_send_window_bounded p _ w hcap
  · have hlen : (svn_buffered p w).length ≠ 5 := h5
    rw [if_neg h5]
    by_cases hvalid : p.buffer < w.strings.length
    · simp only [svn_buffered_append_valid p w [c] hvalid]; simp; omega
    · simp only [svn_buffered_append_invalid p w [c] hvalid]; exact hcap

theorem svn_parse_bytes_bounded_any {β : Type} (s : List UInt8) :
    ∀ (p : svn_vcdiff_parser_t β) (w : svn_world β),
      (svn_buffered p w).length ≤ 5 →
      (svn_buffered (svn_vcdiff_parse_bytes p w s).2.1
        (svn_vcdiff_parse_bytes p w s).2.2).length ≤ 5 := by
  induction s with
  | nil => intro p w hcap; exact hcap
  | cons c t ih =>
    intro p w hcap
    have hstep := svn_parse_byte_bounded p w c hcap
    rcases hs : svn_vcdiff_parse_byte p w c with ⟨e, p1, w1⟩
    rw [hs] at hstep
    simp only [svn_vcdiff_parse_bytes, hs]
    cases e with
    | none => exact ih p1 w1 hstep
    | some err => exact hstep

theorem svn_run_calls_bounded {β : Type} (calls : List svn_call) :
    ∀ (p : svn_vcdiff_parser_t β) (w : svn_world β),
      (∀ c ∈ calls, c ≠ svn_call.ingest []) →
      (svn_buffered p w).length ≤ 5 →
      ∃ p1 w1, svn_run_calls p w calls = Except.ok (p1, w1) ∧
        (svn_buffered p1 w1).length ≤ 5 := by
  induction calls with
  | nil => intro p w _ hcap; exact ⟨p, w, rfl, hcap⟩
  | cons call rest ih =>
    intro p w hne hcap
    have hrest : ∀ c ∈ rest, c ≠ svn_call.ingest [] :=
      fun c h => hne c (List.mem_cons_of_mem _ h)
    cases call with
    | ingest chunk =>
      have hc : chunk ≠ [] := by
        intro h
        exact hne (svn_call.ingest chunk) (List.mem_cons_self _ _) (by rw [h])
      have hb := svn_parse_bytes_bounded_any chunk p w hcap
      simp only [svn_run_calls, svn_parse_eq_bytes p w chunk hc]
      exact ih _ _ hrest hb
    | flush =>
      simp only [svn_run_calls]
      refine ih _ _ hrest ?_
      rw [svn_flush_eq_send]
      exact svn_send_window_bounded p _ w hcap

/-! ## The exact windows of a run with an accepting consumer -/

theorem svn_parse_bytes_period {β : Type} (s : List UInt8) :
    ∀ (p : svn_vcdiff_parser_t β) (w : svn_world β),
      svn_accepting p.consumer_func → p.buffer < w.strings.length →
      (svn_buffered p w).length ≤ 5 →
      ∃ p1 w1 ds, svn_vcdiff_parse_bytes p w s = (none, p1, w1) ∧
        w1.trace = w.trace ++ ds ∧
        ds.map svn_delivery.payload =
          (List.range (((svn_buffered p w).length + s.length) / 6)).map
            (fun k => ((svn_buffered p w ++ s).drop (6 * k)).take 5) ∧
        svn_buffered p1 w1 =
          (svn_buffered p w ++ s).drop (6 * (((svn_buffered p w).length + s.length) / 6)) := by
  induction s with
  | nil =>
    intro p w _ _ hcap
    have h0 : ((svn_buffered p w).length + ([] : List UInt8).length) / 6 = 0 := by
      simp only [List.length_nil, Nat.add_zero]; omega
    refine ⟨p, w, [], rfl, by simp, ?_, ?_⟩
    · rw [h0]; rfl
    · rw [h0]; simp
  | cons c t ih =>
    intro p w hacc hvalid hcap
    simp only [svn_vcdiff_parse_bytes, svn_vcdiff_parse_byte]
    by_cases h5 : (svn_string_at w p.buffer).len = SVN_VCDIFF_WINDOW_SIZE
    · have hlen : (svn_buffered p w).length = 5 := h5
      obtain ⟨pc, wc, hsend, hfun, hvc, hbc, htc⟩ :=
        svn_send_window_accept p SVN_VCDIFF_WINDOW_SIZE w (hacc _ _ _ _)
      rw [if_pos h5, hsend]
      simp only []
      obtain ⟨p1, w1, ds, hrun, htr, hpay, hbuf⟩ :=
        ih pc wc (by rw [hfun]; exact hacc) hvc (by rw [hbc]; simp)
      rw [hbc] at hpay hbuf
      simp only [List.length_nil, Nat.zero_add, List.nil_append] at hpay hbuf
      have hq : ((svn_buffered p w).length + (c :: t).length) / 6 = t.length / 6 + 1 := by
        simp only [List.length_cons]; omega
      have hdrop6 : (svn_buffered p w ++ c :: t).drop 6 = t := by
        have : (6 : Nat) = (svn_buffered p w).length + 1 := by omega
        rw [this, ← List.drop_drop, List.drop_left]
        rfl
      have hdropk : ∀ k, (svn_buffered p w ++ c :: t).drop (6 * (k + 1)) = t.drop (6 * k) := by
        intro k
        have : 6 * (k + 1) = 6 + 6 * k := by ring
        rw [this, ← List.drop_drop, hdrop6]
      refine ⟨p1, w1, svn_call_of p SVN_VCDIFF_WINDOW_SIZE w :: ds, hrun, ?_, ?_, ?_⟩
      · rw [htr, htc]; simp
      · rw [hq, List.range_succ_eq_map, List.map_cons, List.map_cons, List.map_map, hpay]
        congr 1
        · simp only [Nat.mul_zero, List.drop_zero]
          rw [List.take_append_of_le_length (by omega), List.take_of_length_le (by omega)]
          rfl
        · apply List.map_congr_left
          intro k _
          simp only [Function.comp_apply, Nat.succ_eq_add_one, hdropk]
      · rw [hq, hdropk]; exact hbuf
    · have hlen : (svn_buffered p w).length ≠ 5 := h5
      rw [if_neg h5]
      simp only []
      have happ := svn_buffered_append_valid p w [c] hvalid
      obtain ⟨p1, w1, ds, hrun, htr, hpay, hbuf⟩ :=
        ih p (svn_string_appendbytes p.buffer [c] w) hacc
          (by rw [svn_appendbytes_length]; exact hvalid) (by rw [happ]; simp; omega)
      rw [happ] at hpay hbuf
      have hl : (svn_buffered p w ++ [c]).length + t.length
          = (svn_buffered p w).length + (c :: t).length := by
        simp only [List.length_append, List.length_cons, List.length_nil]; omega
      have ha : svn_buffered p w ++ [c] ++ t = svn_buffered p w ++ c :: t := by simp
      rw [hl, ha] at hpay hbuf
      exact ⟨p1, w1, ds, hrun, by rw [htr, svn_appendbytes_trace], hpay, hbuf⟩

theorem svn_flatten_length_five (l : List (List UInt8)) (h : ∀ x ∈ l, x.length = 5) :
    l.flatten.length = 5 * l.length := by
  induction l with
  | nil => rfl
  | cons x xs ih =>
    have hx : x.length = 5 := h x (List.mem_cons_self _ _)
    have hxs := ih (fun y hy => h y (List.mem_cons_of_mem _ hy))
    simp only [List.flatten_cons, List.length_append, List.length_cons, hx, hxs]
    omega

/-! ## The loop on an array longer than the length passed -/

theorem svn_parse_loop_congr {β : Type} (buffer buffer2 : List UInt8) (n : Nat)
    (hread : ∀ i, i < n → buffer[i]? = buffer2[i]?) :
    ∀ (bound i : Nat) (p : svn_vcdiff_parser_t β) (w : svn_world β), i < n →
      svn_vcdiff_parse_loop buffer (n : Int) bound i p w
        = svn_vcdiff_parse_loop buffer2 (n : Int) bound i p w := by
  intro bound
  induction bound with
  | zero =>
    intro i p w hi
    unfold svn_vcdiff_parse_loop
    rw [hread i hi]
  | succ bound ih =>
    intro i p w hi
    unfold svn_vcdiff_parse_loop
    rw [hread i hi]
    by_cases hlt : i + 1 < n
    · have hlt2 : (((i + 1 : Nat) : Int) < (n : Int)) := by exact_mod_cast hlt
      simp only [hlt2, if_true, ih _ _ _ hlt]
    · have hlast : ¬ (((i + 1 : Nat) : Int) < (n : Int)) := by exact_mod_cast hlt
      simp only [hlast, if_false]

theorem svn_parse_loop_within {β : Type} (buffer : List UInt8) (n : Nat)
    (hn : n ≤ buffer.length) (bound : Nat) (p : svn_vcdiff_parser_t β) (w : svn_world β)
    (hpos : 0 < n) (hb : n ≤ 1 + bound) :
    svn_vcdiff_parse_loop buffer (n : Int) bound 0 p w
      = Except.ok (svn_vcdiff_parse_bytes p w (buffer.take n)) := by
  have hlen : (buffer.take n).length = n := by simp [List.length_take, hn]
  have hread : ∀ i, i < n → buffer[i]? = (buffer.take n)[i]? := by
    intro i hi
    rw [List.getElem?_take_of_lt hi]
  rw [svn_parse_loop_congr buffer (buffer.take n) n hread bound 0 p w hpos]
  have key := svn_parse_loop_eq (buffer.take n) bound 0 p w (by omega) (by omega)
  rw [hlen] at key
  simpa using key

/-! ## The hand-off condition is kept by every operation -/

theorem svn_string_at_append_other {β : Type} (w : svn_world β) (str other : svn_string_ptr)
    (bytes : List UInt8) (h : other ≠ str) :
    svn_string_at (svn_string_appendbytes str bytes w) other = svn_string_at w other := by
  simp only [svn_string_at, svn_string_appendbytes, List.getD_eq_getElem?_getD]
  rw [List.getElem?_set_ne (Ne.symm h)]

theorem svn_string_at_append_pool {β : Type} (w : svn_world β) (str : svn_string_ptr)
    (bytes : List UInt8) :
    (svn_string_at (svn_string_appendbytes str bytes w) str).pool = (svn_string_at w str).pool := by
  by_cases h : str < w.strings.length
  · simp [svn_string_at, svn_string_appendbytes, List.getD_eq_getElem?_getD, h]
  · have h2 : w.strings.length ≤ str := Nat.le_of_not_lt h
    have h3 : ∀ a : svn_string_t, (w.strings.set str a)[str]? = none :=
      fun a => List.getElem?_eq_none (by simpa using h2)
    simp [svn_string_at, svn_string_appendbytes, List.getD_eq_getElem?_getD,
      List.getElem?_eq_none h2, h3]

theorem svn_handed_off_append {β : Type} (p : svn_vcdiff_parser_t β) (w : svn_world β)
    (ds : List svn_delivery) (bytes : List UInt8) (h : svn_handed_off p w ds) :
    svn_handed_off p (svn_string_appendbytes p.buffer bytes w) ds := by
  obtain ⟨hsub, hbuf, hpool, hall⟩ := h
  refine ⟨hsub, by rw [svn_appendbytes_length]; exact hbuf,
    by rw [svn_string_at_append_pool]; exact hpool, ?_⟩
  intro d hd
  obtain ⟨hr, hn, hacc⟩ := hall d hd
  refine ⟨hr, by rw [svn_appendbytes_length]; exact hn, ?_⟩
  intro hres
  obtain ⟨h1, h2, h3⟩ := hacc hres
  exact ⟨h1, h2, by rw [svn_string_at_append_other w p.buffer d.window.new bytes h2]; exact h3⟩

theorem svn_string_at_grow {β : Type} (w : svn_world β) (str : svn_string_ptr)
    (extra : svn_string_t) (n : Nat) (b : β) (tr : List svn_delivery)
    (h : str < w.strings.length) :
    svn_string_at ({ next_pool := n, strings := w.strings ++ [extra], baton := b,
                     trace := tr } : svn_world β) str = svn_string_at w str := by
  simp [svn_string_at, List.getD_eq_getElem?_getD, List.getElem?_append_left h]

theorem svn_handed_off_send {β : Type} (p : svn_vcdiff_parser_t β) (len : Nat)
    (w : svn_world β) (ds : List svn_delivery) (h : svn_handed_off p w ds) :
    svn_handed_off (svn_vcdiff_send_window p len w).2.1 (svn_vcdiff_send_window p len w).2.2
      (ds ++ [svn_call_of p len w]) := by
  obtain ⟨hsub, hbuf, hpool, hall⟩ := h
  rcases svn_send_window_cases p len w with ⟨hres, hs⟩ | ⟨ce, hres, hs⟩
  · rw [hs]
    refine ⟨Nat.lt_succ_self _, by simp, ?_, ?_⟩
    · simp [svn_string_at, List.getD_eq_getElem?_getD]
    · intro d hd
      rcases List.mem_append.mp hd with hd | hd
      · obtain ⟨hr, hn, hacc⟩ := hall d hd
        refine ⟨Nat.lt_succ_of_lt hr,
          by simp only [List.length_append, List.length_singleton]; exact Nat.lt_succ_of_lt hn, ?_⟩
        intro hnone
        obtain ⟨-, -, h3⟩ := hacc hnone
        refine ⟨Nat.ne_of_lt hr, Nat.ne_of_lt hn, ?_⟩
        rw [svn_string_at_grow w d.window.new _ _ _ _ hn]
        exact h3
      · rw [List.mem_singleton.mp hd]
        refine ⟨Nat.lt_succ_of_lt hsub,
          by simp only [List.length_append, List.length_singleton]; exact Nat.lt_succ_of_lt hbuf, ?_⟩
        intro _
        refine ⟨Nat.ne_of_lt hsub, Nat.ne_of_lt hbuf, ?_⟩
        have hnew : (svn_call_of p len w).window.new = p.buffer := rfl
        rw [hnew, svn_string_at_grow w p.buffer _ _ _ _ hbuf]
        have hreg : (svn_call_of p len w).region = (svn_string_at w p.buffer).pool := hpool.symm
        rw [hreg]
        rfl
  · rw [hs]
    refine ⟨hsub, hbuf, hpool, ?_⟩
    intro d hd
    rcases List.mem_append.mp hd with hd | hd
    · exact hall d hd
    · rw [List.mem_singleton.mp hd]
      refine ⟨hsub, hbuf, ?_⟩
      intro hnone
      rw [hres] at hnone
      simp at hnone

theorem svn_handed_off_send_trace {β : Type} (p : svn_vcdiff_parser_t β) (len : Nat)
    (w : svn_world β) :
    (svn_vcdiff_send_window p len w).2.2.trace = w.trace ++ [svn_call_of p len w] := by
  rcases svn_send_window_cases p len w with ⟨-, hs⟩ | ⟨ce, -, hs⟩ <;> rw [hs]

theorem svn_handed_off_parse_byte {β : Type} (p : svn_vcdiff_parser_t β) (w : svn_world β)
    (c : UInt8) (t0 ds : List svn_delivery) (htr : w.trace = t0 ++ ds)
    (h : svn_handed_off p w ds) :
    ∃ more, (svn_vcdiff_parse_byte p w c).2.2.trace = t0 ++ (ds ++ more) ∧
      svn_handed_off (svn_vcdiff_parse_byte p w c).2.1 (svn_vcdiff_parse_byte p w c).2.2
        (ds ++ more) := by
  unfold svn_vcdiff_parse_byte
  by_cases h5 : (svn_string_at w p.buffer).len = SVN_VCDIFF_WINDOW_SIZE
  · rw [if_pos h5]
    exact ⟨[svn_call_of p SVN_VCDIFF_WINDOW_SIZE w],
      by rw [svn_handed_off_send_trace, htr, List.append_assoc],
      svn_handed_off_send p _ w ds h⟩
  · rw [if_neg h5]
    exact ⟨[], by simp [svn_appendbytes_trace, htr],
      by simpa using svn_handed_off_append p w ds [c] h⟩

theorem svn_handed_off_parse_bytes {β : Type} (s : List UInt8) :
    ∀ (p : svn_vcdiff_parser_t β) (w : svn_world β) (t0 ds : List svn_delivery),
      w.trace = t0 ++ ds → svn_handed_off p w ds →
      ∃ more, (svn_vcdiff_parse_bytes p w s).2.2.trace = t0 ++ (ds ++ more) ∧
        svn_handed_off (svn_vcdiff_parse_bytes p w s).2.1 (svn_vcdiff_parse_bytes p w s).2.2
          (ds ++ more) := by
  induction s with
  | nil => intro p w t0 ds htr h; exact ⟨[], by simpa using htr, by simpa using h⟩
  | cons c t ih =>
    intro p w t0 ds htr h
    obtain ⟨more, hm, hinv⟩ := svn_handed_off_parse_byte p w c t0 ds htr h
    rcases hs : svn_vcdiff_parse_byte p w c with ⟨e, p1, w1⟩
    rw [hs] at hm hinv
    simp only [svn_vcdiff_parse_bytes, hs]
    cases e with
    | some err => exact ⟨more, hm, hinv⟩
    | none =>
      obtain ⟨more2, hm2, hinv2⟩ := ih p1 w1 t0 (ds ++ more) hm hinv
      exact ⟨more ++ more2, by rw [hm2, List.append_assoc], by rw [← List.append_assoc]; exact hinv2⟩

theorem svn_handed_off_run {β : Type} (calls : List svn_call) :
    ∀ (p : svn_vcdiff_parser_t β) (w : svn_world β) (t0 ds : List svn_delivery),
      (∀ c ∈ calls, c ≠ svn_call.ingest []) →
      w.trace = t0 ++ ds → svn_handed_off p w ds →
      ∃ p1 w1 more, svn_run_calls p w calls = Except.ok (p1, w1) ∧
        w1.trace = t0 ++ (ds ++ more) ∧ svn_handed_off p1 w1 (ds ++ more) := by
  induction calls with
  | nil => intro p w t0 ds _ htr h; exact ⟨p, w, [], rfl, by simpa using htr, by simpa using h⟩
  | cons call rest ih =>
    intro p w t0 ds hne htr h
    have hrest : ∀ c ∈ rest, c ≠ svn_call.ingest [] :=
      fun c hc => hne c (List.mem_cons_of_mem _ hc)
    cases call with
    | ingest chunk =>
      have hc : chunk ≠ [] := by
        intro h0
        exact hne (svn_call.ingest chunk) (List.mem_cons_self _ _) (by rw [h0])
      obtain ⟨more, hm, hinv⟩ := svn_handed_off_parse_bytes chunk p w t0 ds htr h
      obtain ⟨p1, w1, more2, hrun, hm2, hinv2⟩ := ih _ _ t0 (ds ++ more) hrest hm hinv
      refine ⟨p1, w1, more ++ more2, ?_, by rw [hm2, List.append_assoc],
        by rw [← List.append_assoc]; exact hinv2⟩
      simp only [svn_run_calls, svn_parse_eq_bytes p w chunk hc]
      exact hrun
    | flush =>
      have hinv := svn_handed_off_send p (svn_buffered p w).length w ds h
      have hm : (svn_vcdiff_send_window p (svn_buffered p w).length w).2.2.trace
          = t0 ++ (ds ++ [svn_call_of p (svn_buffered p w).length w]) := by
        rw [svn_handed_off_send_trace, htr, List.append_assoc]
      obtain ⟨p1, w1, more2, hrun, hm2, hinv2⟩ := ih _ _ t0 _ hrest hm hinv
      refine ⟨p1, w1, [svn_call_of p (svn_buffered p w).length w] ++ more2, ?_,
        by rw [hm2, List.append_assoc], by rw [← List.append_assoc]; exact hinv2⟩
      simp only [svn_run_calls, svn_flush_eq_send]
      exact hrun

theorem svn_handed_off_new {β : Type} (handler : svn_delta_handler_t β) (handler_baton : Nat)
    (pool : apr_pool_t) (w : svn_world β) :
    svn_handed_off (svn_make_vcdiff_parser_fn handler handler_baton pool w).1
      (svn_make_vcdiff_parser_fn handler handler_baton pool w).2 [] := by
  refine ⟨?_, ?_, ?_, by simp⟩ <;>
    simp [svn_make_parser_eq, svn_string_at, List.getD_eq_getElem?_getD]

/-! ## Losslessness, window count, prompt emission, chunk boundaries -/

/-- C1: on the code the claim fails at its own scenario.  A fresh parser with
the accepting consumer is given "abcdefg" (97 .. 103) in one call: the consumer
receives the window "abcde" and the buffer then holds only "g".  The byte "f",
at the offset where the window is cut, is in neither, so the delivered payloads
followed by the buffer are "abcdeg", not the input. -/
theorem parse_abcdefg_loses_cut_byte :
    svn_parse_outcome
        (svn_vcdiff_parse svn_fresh [97, 98, 99, 100, 101, 102, 103] 7 svn_fresh_world)
      = some
          { err := none,
            buffer := [103],
            trace := [{ window := { num_ops := 1,
                                    ops := [{ op := svn_delta_action.svn_delta_new,
                                              offset := 0, length := 5 }],
                                    new := 0, my_pool := none },
                        payload := [97, 98, 99, 100, 101], region := 0, result := none }] } ∧
    (svn_parse_outcome
        (svn_vcdiff_parse svn_fresh [97, 98, 99, 100, 101, 102, 103] 7 svn_fresh_world)).map
        svn_outcome.stream
      = some [97, 98, 99, 100, 101, 103] ∧
    (svn_parse_outcome
        (svn_vcdiff_parse svn_fresh [97, 98, 99, 100, 101, 102, 103] 7 svn_fresh_world)).map
        svn_outcome.stream
      ≠ some [97, 98, 99, 100, 101, 102, 103] := by
  decide

/-- C2, counterexample: a fresh parser with the accepting consumer is given the
5 bytes "abcde" in one call, L = C = 5.  No window is delivered and the buffer
holds 5 bytes, where the claim has L div C = 1 window and L mod C = 0 bytes. -/
theorem parse_five_bytes_delivers_nothing :
    (svn_parse_outcome
        (svn_vcdiff_parse_chunks svn_fresh svn_fresh_world
          [[97, 98, 99, 100, 101]])).map
        (fun o => (o.trace.length, o.buffer.length))
      = some (0, 5) ∧
    (0, 5) ≠ (5 / SVN_VCDIFF_WINDOW_SIZE, 5 % SVN_VCDIFF_WINDOW_SIZE) := by
  decide

/-- C2, amended: a fresh parser with an accepting consumer is fed a stream of
total length L >= 1 in any non-empty chunks, with no flush.  Then every call
succeeds, at most L div C windows are delivered, each with a payload of exactly
C = 5 bytes, and the buffer holds at most C bytes.  When L <= C no window is
delivered and the buffer holds the whole stream: a full buffer is cut only when
a further byte is parsed. -/
theorem parse_chunks_window_count {β : Type} (handler : svn_delta_handler_t β)
    (handler_baton : Nat) (pool : apr_pool_t) (w : svn_world β)
    (chunks : List (List UInt8))
    (hacc : svn_accepting handler) (hne : ∀ c ∈ chunks, c ≠ [])
    (hL : 1 ≤ chunks.flatten.length) :
    ∃ p1 w1 ds,
      svn_vcdiff_parse_chunks (svn_make_vcdiff_parser_fn handler handler_baton pool w).1
          (svn_make_vcdiff_parser_fn handler handler_baton pool w).2 chunks
        = Except.ok (none, p1, w1) ∧
      w1.trace = w.trace ++ ds ∧
      ds.length ≤ chunks.flatten.length / SVN_VCDIFF_WINDOW_SIZE ∧
      (∀ d ∈ ds, d.payload.length = SVN_VCDIFF_WINDOW_SIZE) ∧
      (svn_buffered p1 w1).length ≤ SVN_VCDIFF_WINDOW_SIZE ∧
      (chunks.flatten.length ≤ SVN_VCDIFF_WINDOW_SIZE →
        ds = [] ∧ svn_buffered p1 w1 = chunks.flatten) := by
  have hb := svn_make_parser_buffered handler handler_baton pool w
  obtain ⟨p1, w1, ds, hrun, htr, hcount, hbuf, hpay, hall⟩ :=
    svn_parse_bytes_count chunks.flatten
      (svn_make_vcdiff_parser_fn handler handler_baton pool w).1
      (svn_make_vcdiff_parser_fn handler handler_baton pool w).2
      hacc (by simp [svn_make_parser_eq]) (by rw [hb]; simp)
  rw [hb] at hcount hbuf hall
  simp only [List.length_nil, Nat.zero_add, List.nil_append] at hcount hbuf hall
  refine ⟨p1, w1, ds, ?_, ?_, ?_, hpay, ?_, ?_⟩
  · rw [svn_parse_chunks_eq_bytes chunks hne, hrun]
  · rw [htr]; rfl
  · simp only [SVN_VCDIFF_WINDOW_SIZE]; omega
  · simp only [SVN_VCDIFF_WINDOW_SIZE]; omega
  · intro h
    simp only [SVN_VCDIFF_WINDOW_SIZE] at h
    refine ⟨?_, hall h⟩
    apply List.eq_nil_of_length_eq_zero
    omega

/-- C2, witness: the stream "abcdefghij" fed one byte at a time. -/
theorem parse_chunks_window_count_witness :
    ∃ p1 w1 ds,
      svn_vcdiff_parse_chunks svn_fresh svn_fresh_world
          [[97], [98], [99], [100], [101], [102], [103], [104], [105], [106]]
        = Except.ok (none, p1, w1) ∧
      w1.trace = (svn_empty_world ()).trace ++ ds ∧
      ds.length ≤
        ([[97], [98], [99], [100], [101], [102], [103], [104], [105], [106]] :
          List (List UInt8)).flatten.length / SVN_VCDIFF_WINDOW_SIZE ∧
      (∀ d ∈ ds, d.payload.length = SVN_VCDIFF_WINDOW_SIZE) ∧
      (svn_buffered p1 w1).length ≤ SVN_VCDIFF_WINDOW_SIZE ∧
      (([[97], [98], [99], [100], [101], [102], [103], [104], [105], [106]] :
          List (List UInt8)).flatten.length ≤ SVN_VCDIFF_WINDOW_SIZE →
        ds = [] ∧ svn_buffered p1 w1 =
          ([[97], [98], [99], [100], [101], [102], [103], [104], [105], [106]] :
            List (List UInt8)).flatten) :=
  parse_chunks_window_count svn_accept_all 0 0 (svn_empty_world ())
    [[97], [98], [99], [100], [101], [102], [103], [104], [105], [106]]
    (fun _ _ _ _ => rfl) (by decide) (by decide)

/-- C3, counterexample: a fresh parser (empty buffer, so within capacity) with
the accepting consumer is given the non-empty chunk "vwxyz".  The call returns
success and the buffer then holds 5 bytes, which is not strictly less than the
capacity. -/
theorem parse_can_leave_full_buffer :
    svn_parse_outcome
        (svn_vcdiff_parse svn_fresh [118, 119, 120, 121, 122] 5 svn_fresh_world)
      = some { err := none, buffer := [118, 119, 120, 121, 122], trace := [] } ∧
    ¬ ([118, 119, 120, 121, 122] : List UInt8).length < SVN_VCDIFF_WINDOW_SIZE := by
  decide

/-- C3, amended: for every parser state whose buffer length is at most the
capacity, every non-empty chunk and an accepting consumer, `svn_vcdiff_parse`
returns success and the buffer length after the call is at most the capacity
(it may be equal to it: a buffer filled by the last byte of the chunk is cut by
a later call). -/
theorem parse_keeps_buffer_within_capacity {β : Type} (p : svn_vcdiff_parser_t β)
    (w : svn_world β) (chunk : List UInt8)
    (hne : chunk ≠ []) (hacc : svn_accepting p.consumer_func)
    (hcap : (svn_buffered p w).length ≤ SVN_VCDIFF_WINDOW_SIZE) :
    ∃ p1 w1, svn_vcdiff_parse p chunk (chunk.length : Int) w = Except.ok (none, p1, w1) ∧
      (svn_buffered p1 w1).length ≤ SVN_VCDIFF_WINDOW_SIZE := by
  obtain ⟨p1, w1, hrun, hlen⟩ := svn_parse_bytes_bounded chunk p w hacc hcap
  exact ⟨p1, w1, by rw [svn_parse_eq_bytes p w chunk hne, hrun], hlen⟩

/-- C3, witness: a fresh parser and the chunk "vwxyz". -/
theorem parse_keeps_buffer_within_capacity_witness :
    ∃ p1 w1,
      svn_vcdiff_parse svn_fresh
          [118, 119, 120, 121, 122] (([118, 119, 120, 121, 122] : List UInt8).length : Int)
          svn_fresh_world
        = Except.ok (none, p1, w1) ∧
      (svn_buffered p1 w1).length ≤ SVN_VCDIFF_WINDOW_SIZE :=
  parse_keeps_buffer_within_capacity _ _ [118, 119, 120, 121, 122] (by decide)
    (fun _ _ _ _ => rfl) (by decide)

/-- C4: for every parser state, every consumer and every two non-empty byte
sequences a and b, parsing a ++ b in one call returns exactly what parsing a
and then, if that returned no error, parsing b returns: the same error or
success, the same parser, the same memory and the same consumer calls in the
same order.  In particular parsing a one byte at a time returns what parsing
it in one call returns. -/
theorem parse_independent_of_chunking {β : Type} (p : svn_vcdiff_parser_t β)
    (w : svn_world β) (a b : List UInt8) (ha : a ≠ []) (hb : b ≠ []) :
    svn_vcdiff_parse p (a ++ b) ((a ++ b).length : Int) w
        = svn_vcdiff_parse_chunks p w [a, b] ∧
    svn_vcdiff_parse_chunks p w (a.map fun c => [c])
        = svn_vcdiff_parse p a (a.length : Int) w := by
  constructor
  · rw [svn_parse_eq_bytes p w (a ++ b) (by simp [ha]),
      svn_parse_chunks_eq_bytes [a, b] (by simp [ha, hb])]
    simp
  · have hflat : ∀ l : List UInt8, (l.map fun c => [c]).flatten = l := by
      intro l
      induction l with
      | nil => rfl
      | cons c t ih => simp [ih]
    rw [svn_parse_eq_bytes p w a ha, svn_parse_chunks_eq_bytes _ (by simp), hflat]

/-- C4, witness: "abcd" then "efgh" from a fresh parser. -/
theorem parse_independent_of_chunking_witness :
    svn_vcdiff_parse svn_fresh ([97, 98, 99, 100] ++ [101, 102, 103, 104])
        ((([97, 98, 99, 100] : List UInt8) ++ [101, 102, 103, 104]).length : Int) svn_fresh_world
      = svn_vcdiff_parse_chunks svn_fresh svn_fresh_world
          [[97, 98, 99, 100], [101, 102, 103, 104]] ∧
    svn_vcdiff_parse_chunks svn_fresh svn_fresh_world
        (([97, 98, 99, 100] : List UInt8).map fun c => [c])
      = svn_vcdiff_parse svn_fresh [97, 98, 99, 100] (([97, 98, 99, 100] : List UInt8).length : Int)
          svn_fresh_world :=
  parse_independent_of_chunking _ _ [97, 98, 99, 100] [101, 102, 103, 104]
    (by decide) (by decide)

/-! ## Flush, window shape, and consumer failures -/

/-- C5, counterexample: flushing a fresh parser, whose buffer is empty, calls
the consumer once, with a window of length 0 and an empty payload, and moves
the parser to another sub-pool and buffer; it is not a no-op. -/
theorem flush_of_empty_buffer_calls_consumer :
    svn_outcome_of
        (svn_vcdiff_flush_buffer svn_fresh svn_fresh_world)
      = { err := none,
          buffer := [],
          trace := [{ window := { num_ops := 1,
                                  ops := [{ op := svn_delta_action.svn_delta_new,
                                            offset := 0, length := 0 }],
                                  new := 0, my_pool := none },
                      payload := [], region := 0, result := none }] } ∧
    svn_buffered svn_fresh svn_fresh_world = [] ∧
    svn_fresh.subpool = 0 ∧
    (svn_vcdiff_flush_buffer svn_fresh svn_fresh_world).2.1.subpool = 1 := by
  decide

/-- C5, amended: `svn_vcdiff_flush_buffer` calls the consumer exactly once on
every call, whether the buffer is empty or not.  The window is built from the
buffer's current length (which may be less than the capacity, and is 0 for an
empty buffer): one new-text instruction at offset 0 of that length, with the
whole buffer as payload.  The call returns success exactly when the consumer
accepts, and the parser's buffer is then empty. -/
theorem flush_delivers_one_window {β : Type} (p : svn_vcdiff_parser_t β) (w : svn_world β) :
    ∃ d, (svn_vcdiff_flush_buffer p w).2.2.trace = w.trace ++ [d] ∧
      d.payload = svn_buffered p w ∧
      d.window = { num_ops := 1,
                   ops := [{ op := svn_delta_action.svn_delta_new, offset := 0,
                             length := (svn_buffered p w).length }],
                   new := p.buffer, my_pool := none } ∧
      ((svn_vcdiff_flush_buffer p w).1 = none ↔ d.result = none) ∧
      (d.result = none →
        svn_buffered (svn_vcdiff_flush_buffer p w).2.1 (svn_vcdiff_flush_buffer p w).2.2 = []) := by
  rw [svn_flush_eq_send]
  refine ⟨svn_call_of p (svn_buffered p w).length w, ?_, rfl, rfl, ?_, ?_⟩
  all_goals rcases svn_send_window_cases p (svn_buffered p w).length w with ⟨hres, hs⟩ | ⟨ce, hres, hs⟩
  all_goals rw [hs]
  · exact ⟨fun _ => hres, fun _ => rfl⟩
  · simp [hres]
  · intro _
    simp [svn_buffered, svn_string_at, List.getD_eq_getElem?_getD]
  · simp [hres]

/-- C6, counterexample: a fresh parser with the accepting consumer is given
"ab" and is then flushed twice.  The consumer is called twice, the second time
with a window of length 0 and an empty payload, where the claim allows at most
one window in total; and the second call moves the parser to another sub-pool. -/
theorem flush_twice_calls_consumer_twice :
    svn_parse_outcome
        ((svn_vcdiff_parse svn_fresh [97, 98] 2 svn_fresh_world).map
          (fun x =>
            svn_vcdiff_flush_buffer (svn_vcdiff_flush_buffer x.2.1 x.2.2).2.1
              (svn_vcdiff_flush_buffer x.2.1 x.2.2).2.2))
      = some
          { err := none,
            buffer := [],
            trace := [{ window := { num_ops := 1,
                                    ops := [{ op := svn_delta_action.svn_delta_new,
                                              offset := 0, length := 2 }],
                                    new := 0, my_pool := none },
                        payload := [97, 98], region := 0, result := none },
                      { window := { num_ops := 1,
                                    ops := [{ op := svn_delta_action.svn_delta_new,
                                              offset := 0, length := 0 }],
                                    new := 1, my_pool := none },
                        payload := [], region := 1, result := none }] } := by
  decide

/-- C6, amended: for every parser state and an accepting consumer, two calls
of `svn_vcdiff_flush_buffer` in a row both succeed and call the consumer once
each: the first window carries the buffered bytes, the second has an empty
payload and an instruction of length 0.  The buffer is empty after the first
call and still empty after the second, and the first window is not delivered
again. -/
theorem flush_twice_delivers_empty_window {β : Type} (p : svn_vcdiff_parser_t β)
    (w : svn_world β) (hacc : svn_accepting p.consumer_func) :
    ∃ d1 d2,
      (svn_vcdiff_flush_buffer p w).1 = none ∧
      (svn_vcdiff_flush_buffer p w).2.2.trace = w.trace ++ [d1] ∧
      svn_buffered (svn_vcdiff_flush_buffer p w).2.1 (svn_vcdiff_flush_buffer p w).2.2 = [] ∧
      (svn_vcdiff_flush_buffer (svn_vcdiff_flush_buffer p w).2.1
          (svn_vcdiff_flush_buffer p w).2.2).1 = none ∧
      (svn_vcdiff_flush_buffer (svn_vcdiff_flush_buffer p w).2.1
          (svn_vcdiff_flush_buffer p w).2.2).2.2.trace = w.trace ++ [d1, d2] ∧
      svn_buffered
          (svn_vcdiff_flush_buffer (svn_vcdiff_flush_buffer p w).2.1
            (svn_vcdiff_flush_buffer p w).2.2).2.1
          (svn_vcdiff_flush_buffer (svn_vcdiff_flush_buffer p w).2.1
            (svn_vcdiff_flush_buffer p w).2.2).2.2 = [] ∧
      d1.payload = svn_buffered p w ∧
      d2.payload = [] ∧
      d2.window.ops = [{ op := svn_delta_action.svn_delta_new, offset := 0, length := 0 }] := by
  obtain ⟨p1, w1, hs1, hf1, -, hb1, ht1⟩ :=
    svn_send_window_accept p (svn_buffered p w).length w (hacc _ _ _ _)
  have hacc1 : svn_accepting p1.consumer_func := by rw [hf1]; exact hacc
  obtain ⟨p2, w2, hs2, -, -, hb2, ht2⟩ :=
    svn_send_window_accept p1 (svn_buffered p1 w1).length w1 (hacc1 _ _ _ _)
  have e1 : svn_vcdiff_flush_buffer p w = (none, p1, w1) := by rw [svn_flush_eq_send, hs1]
  have e2 : svn_vcdiff_flush_buffer p1 w1 = (none, p2, w2) := by rw [svn_flush_eq_send, hs2]
  refine ⟨svn_call_of p (svn_buffered p w).length w,
    svn_call_of p1 (svn_buffered p1 w1).length w1, ?_⟩
  simp only [e1, e2]
  refine ⟨trivial, ht1, hb1, trivial, ?_, hb2, rfl, hb1, ?_⟩
  · rw [ht2, ht1]; simp
  · simp [svn_call_of, svn_window_of, hb1]

/-- C6, witness: a parser whose buffer holds "ab", flushed twice. -/
theorem flush_twice_delivers_empty_window_witness :
    ∃ d1 d2 : svn_delivery,
      d1.payload = [97, 98] ∧ d2.payload = [] ∧
      (svn_vcdiff_flush_buffer
          (svn_vcdiff_flush_buffer svn_fresh (svn_string_appendbytes 0 [97, 98]
              svn_fresh_world)).2.1
          (svn_vcdiff_flush_buffer svn_fresh (svn_string_appendbytes 0 [97, 98]
              svn_fresh_world)).2.2).2.2.trace
        = [d1, d2] := by
  obtain ⟨d1, d2, -, -, -, -, h5, -, h7, h8, -⟩ :=
    flush_twice_delivers_empty_window svn_fresh (svn_string_appendbytes 0 [97, 98] svn_fresh_world)
      (fun _ _ _ _ => rfl)
  exact ⟨d1, d2, h7, h8, h5⟩

/-- C7: every window handed to the consumer, by `svn_vcdiff_parse` on a
non-empty chunk or by `svn_vcdiff_flush_buffer`, has num_ops = 1 and exactly
one instruction, of kind new text, at offset 0, whose length is the number of
bytes of the payload; its payload string is the parser's buffer object, and the
payload bytes are the whole buffer as it was at the cut: for `svn_vcdiff_parse`
the buffer in the state reached after the bytes before the cut offset, for
`svn_vcdiff_flush_buffer` the buffer in the state it was called in.  Building
and sending the window changes no existing string. -/
theorem delivered_window_shape {β : Type} (p : svn_vcdiff_parser_t β) (w : svn_world β)
    (chunk : List UInt8) (hne : chunk ≠ []) :
    (∃ e p1 w1 ds,
      svn_vcdiff_parse p chunk (chunk.length : Int) w = Except.ok (e, p1, w1) ∧
      w1.trace = w.trace ++ ds ∧
      ∀ d ∈ ds,
        d.window.num_ops = 1 ∧
        d.window.ops = [{ op := svn_delta_action.svn_delta_new, offset := 0,
                          length := d.payload.length }] ∧
        ∃ i pi wi, i < chunk.length ∧ svn_state_after p w chunk i pi wi ∧
          d.window.new = pi.buffer ∧ d.payload = svn_buffered pi wi ∧
          d.region = pi.subpool) ∧
    (∃ d,
      (svn_vcdiff_flush_buffer p w).2.2.trace = w.trace ++ [d] ∧
      d.window.num_ops = 1 ∧
      d.window.ops = [{ op := svn_delta_action.svn_delta_new, offset := 0,
                        length := d.payload.length }] ∧
      d.window.new = p.buffer ∧ d.payload = svn_buffered p w ∧ d.region = p.subpool ∧
      w.strings <+: (svn_vcdiff_flush_buffer p w).2.2.strings) := by
  constructor
  · obtain ⟨ds, hds, hall⟩ := svn_parse_bytes_calls chunk p w
    refine ⟨(svn_vcdiff_parse_bytes p w chunk).1, (svn_vcdiff_parse_bytes p w chunk).2.1,
      (svn_vcdiff_parse_bytes p w chunk).2.2, ds, svn_parse_eq_bytes p w chunk hne, hds, ?_⟩
    intro d hd
    obtain ⟨i, pi, wi, hi, hrun, hlen, rfl⟩ := hall d hd
    refine ⟨rfl, ?_, i, pi, wi, hi,
      (svn_state_after_iff p w chunk i (Nat.le_of_lt hi) pi wi).mpr hrun, rfl, rfl, rfl⟩
    simp only [svn_call_of, svn_window_of, hlen]
  · rw [svn_flush_eq_send]
    refine ⟨svn_call_of p (svn_buffered p w).length w, ?_, rfl, rfl, rfl, rfl, rfl, ?_⟩
    all_goals
      rcases svn_send_window_cases p (svn_buffered p w).length w with ⟨-, hs⟩ | ⟨ce, -, hs⟩
    all_goals rw [hs]
    exact ⟨_, rfl⟩

/-- C7, witness: a parser whose buffer holds "abcde", given "xyz" and flushed. -/
theorem delivered_window_shape_witness :
    (∃ e p1 w1 ds,
      svn_vcdiff_parse svn_fresh [120, 121, 122] (([120, 121, 122] : List UInt8).length : Int)
          (svn_string_appendbytes 0 [97, 98, 99, 100, 101] svn_fresh_world)
        = Except.ok (e, p1, w1) ∧
      w1.trace =
        (svn_string_appendbytes 0 [97, 98, 99, 100, 101] svn_fresh_world).trace ++ ds ∧
      ∀ d ∈ ds,
        d.window.num_ops = 1 ∧
        d.window.ops = [{ op := svn_delta_action.svn_delta_new, offset := 0,
                          length := d.payload.length }] ∧
        ∃ i pi wi, i < ([120, 121, 122] : List UInt8).length ∧
          svn_state_after svn_fresh (svn_string_appendbytes 0 [97, 98, 99, 100, 101]
              svn_fresh_world)
            [120, 121, 122] i pi wi ∧
          d.window.new = pi.buffer ∧ d.payload = svn_buffered pi wi ∧
          d.region = pi.subpool) ∧
    (∃ d,
      (svn_vcdiff_flush_buffer svn_fresh (svn_string_appendbytes 0 [97, 98, 99, 100, 101]
            svn_fresh_world)).2.2.trace
        = (svn_string_appendbytes 0 [97, 98, 99, 100, 101] svn_fresh_world).trace ++ [d] ∧
      d.window.num_ops = 1 ∧
      d.window.ops = [{ op := svn_delta_action.svn_delta_new, offset := 0,
                        length := d.payload.length }] ∧
      d.window.new = svn_fresh.buffer ∧
      d.payload =
        svn_buffered svn_fresh (svn_string_appendbytes 0 [97, 98, 99, 100, 101] svn_fresh_world) ∧
      d.region = svn_fresh.subpool ∧
      (svn_string_appendbytes 0 [97, 98, 99, 100, 101] svn_fresh_world).strings <+:
        (svn_vcdiff_flush_buffer svn_fresh (svn_string_appendbytes 0 [97, 98, 99, 100, 101]
            svn_fresh_world)).2.2.strings) :=
  delivered_window_shape svn_fresh (svn_string_appendbytes 0 [97, 98, 99, 100, 101] svn_fresh_world)
    [120, 121, 122] (by decide)

/-- C8: for every parser state and byte count, `svn_vcdiff_send_window` calls
the consumer exactly once.  If the consumer succeeds the call returns success,
the parser's sub-pool is a pool that was not in use before, its buffer is a
newly allocated empty string in that pool, its other fields are unchanged and
no existing string is changed.  If the consumer fails the call returns the
consumer's error wrapped, and the parser, the strings and the pool allocator
are exactly what they were before the call. -/
theorem send_window_is_atomic {β : Type} (p : svn_vcdiff_parser_t β) (len : Nat)
    (w : svn_world β) :
    ∃ d, (svn_vcdiff_send_window p len w).2.2.trace = w.trace ++ [d] ∧
      (d.result = none →
        (svn_vcdiff_send_window p len w).1 = none ∧
        (svn_vcdiff_send_window p len w).2.1
          = { p with subpool := w.next_pool, buffer := w.strings.length } ∧
        (svn_vcdiff_send_window p len w).2.2.next_pool = w.next_pool + 1 ∧
        (svn_vcdiff_send_window p len w).2.2.strings = w.strings ++ [⟨[], w.next_pool⟩] ∧
        svn_string_at (svn_vcdiff_send_window p len w).2.2
            (svn_vcdiff_send_window p len w).2.1.buffer = ⟨[], w.next_pool⟩) ∧
      (∀ ce, d.result = some ce →
        (svn_vcdiff_send_window p len w).1
          = some (svn_quick_wrap_error ce "svn_vcdiff_send_window: consumer_func choked.") ∧
        (svn_vcdiff_send_window p len w).2.1 = p ∧
        (svn_vcdiff_send_window p len w).2.2.strings = w.strings ∧
        (svn_vcdiff_send_window p len w).2.2.next_pool = w.next_pool ∧
        svn_buffered (svn_vcdiff_send_window p len w).2.1 (svn_vcdiff_send_window p len w).2.2
          = svn_buffered p w) := by
  refine ⟨svn_call_of p len w, ?_⟩
  rcases svn_send_window_cases p len w with ⟨hres, hs⟩ | ⟨ce, hres, hs⟩
  · rw [hs]
    refine ⟨rfl, fun _ => ⟨rfl, rfl, rfl, rfl, ?_⟩, ?_⟩
    · simp [svn_string_at, List.getD_eq_getElem?_getD]
    · intro ce h; rw [hres] at h; simp at h
  · rw [hs]
    refine ⟨rfl, ?_, ?_⟩
    · intro h; rw [hres] at h; simp at h
    · intro ce2 h
      rw [hres] at h
      simp only [Option.some.injEq] at h
      subst h
      exact ⟨rfl, rfl, rfl, rfl, rfl⟩

/-- C9: for every parser state, non-empty chunk and consumer,
`svn_vcdiff_parse` returns, and it returns an error if and only if some
consumer call made during the call returned an error.  In that case the failing
call is the last consumer call, all earlier ones succeeded, the returned error
is the consumer's error wrapped, and the parser and all strings are exactly
what they were after the bytes before the failure offset `i`: no byte at or
after that offset is appended to the buffer. -/
theorem parse_fails_iff_consumer_fails {β : Type} (p : svn_vcdiff_parser_t β)
    (w : svn_world β) (chunk : List UInt8) (hne : chunk ≠ []) :
    ∃ e p1 w1 ds,
      svn_vcdiff_parse p chunk (chunk.length : Int) w = Except.ok (e, p1, w1) ∧
      w1.trace = w.trace ++ ds ∧
      (e ≠ none ↔ ∃ d ∈ ds, d.result ≠ none) ∧
      (∀ err, e = some err →
        ∃ init last ce i pi wi,
          ds = init ++ [last] ∧ (∀ d ∈ init, d.result = none) ∧ last.result = some ce ∧
          err = svn_quick_wrap_error ce "svn_vcdiff_send_window: consumer_func choked." ∧
          i < chunk.length ∧ svn_state_after p w chunk i pi wi ∧
          p1 = pi ∧ w1.strings = wi.strings ∧ svn_buffered p1 w1 = svn_buffered pi wi) := by
  rcases hrun : svn_vcdiff_parse_bytes p w chunk with ⟨e, p1, w1⟩
  cases e with
  | none =>
    obtain ⟨ds, hds, hall⟩ := svn_parse_bytes_ok_results chunk p w p1 w1 hrun
    refine ⟨none, p1, w1, ds, by rw [svn_parse_eq_bytes p w chunk hne, hrun], hds, ?_, ?_⟩
    · constructor
      · intro h; exact absurd rfl h
      · rintro ⟨d, hd, hres⟩; exact absurd (hall d hd) hres
    · intro err h; simp at h
  | some err =>
    obtain ⟨i, pi, wi, hi, hpre, -, hsend⟩ := svn_parse_bytes_error chunk p w err p1 w1 hrun
    obtain ⟨init, hinit, hall⟩ := svn_parse_bytes_ok_results (chunk.take i) p w pi wi hpre
    obtain ⟨ce, hres, herr, hp, hstr, -, htr⟩ := svn_send_window_fail pi _ wi err p1 w1 hsend
    refine ⟨some err, p1, w1, init ++ [svn_call_of pi SVN_VCDIFF_WINDOW_SIZE wi],
      by rw [svn_parse_eq_bytes p w chunk hne, hrun], by rw [htr, hinit]; simp, ?_, ?_⟩
    · constructor
      · intro _
        exact ⟨svn_call_of pi SVN_VCDIFF_WINDOW_SIZE wi, by simp, by rw [hres]; simp⟩
      · intro _; simp
    · intro err2 h
      simp only [Option.some.injEq] at h
      subst h
      refine ⟨init, _, ce, i, pi, wi, rfl, hall, hres, herr, hi,
        (svn_state_after_iff p w chunk i (Nat.le_of_lt hi) pi wi).mpr hpre, hp, hstr, ?_⟩
      simp only [svn_buffered, svn_string_at, hp, hstr]

/-- C9, witness: the consumer that fails on its second call, given twelve
bytes by a fresh parser. -/
theorem parse_fails_iff_consumer_fails_witness :
    ∃ e p1 w1 ds,
      svn_vcdiff_parse svn_refusing [97, 98, 99, 100, 101, 102, 103, 104, 105, 106, 107, 108]
          (([97, 98, 99, 100, 101, 102, 103, 104, 105, 106, 107, 108] : List UInt8).length : Int)
          svn_refusing_world
        = Except.ok (e, p1, w1) ∧
      w1.trace =
        svn_refusing_world.trace ++ ds ∧
      (e ≠ none ↔ ∃ d ∈ ds, d.result ≠ none) ∧
      (∀ err, e = some err →
        ∃ init last ce i pi wi,
          ds = init ++ [last] ∧ (∀ d ∈ init, d.result = none) ∧ last.result = some ce ∧
          err = svn_quick_wrap_error ce "svn_vcdiff_send_window: consumer_func choked." ∧
          i < ([97, 98, 99, 100, 101, 102, 103, 104, 105, 106, 107, 108] : List UInt8).length ∧
          svn_state_after svn_refusing svn_refusing_world
            [97, 98, 99, 100, 101, 102, 103, 104, 105, 106, 107, 108] i pi wi ∧
          p1 = pi ∧ w1.strings = wi.strings ∧ svn_buffered p1 w1 = svn_buffered pi wi) :=
  parse_fails_iff_consumer_fails _ _ [97, 98, 99, 100, 101, 102, 103, 104, 105, 106, 107, 108]
    (by decide)

/-- C10, counterexample: a fresh parser whose consumer accepts the first window
and fails on the second is given the twelve bytes "abcdefghijkl" in one call.
The first window "abcde" is delivered, the second window "ghijk" is refused,
the call returns the wrapped error, and the parser's buffer then holds "ghijk":
exactly the payload of the failing window, not bytes received after it. -/
theorem parse_error_leaves_failing_payload_buffered :
    svn_parse_outcome
        (svn_vcdiff_parse svn_refusing [97, 98, 99, 100, 101, 102, 103, 104, 105, 106, 107, 108] 12
          svn_refusing_world)
      = some
          { err := some (svn_error_t.wrapped (svn_error_t.original 7 "refused")
                          "svn_vcdiff_send_window: consumer_func choked."),
            buffer := [103, 104, 105, 106, 107],
            trace := [{ window := { num_ops := 1,
                                    ops := [{ op := svn_delta_action.svn_delta_new,
                                              offset := 0, length := 5 }],
                                    new := 0, my_pool := none },
                        payload := [97, 98, 99, 100, 101], region := 0, result := none },
                      { window := { num_ops := 1,
                                    ops := [{ op := svn_delta_action.svn_delta_new,
                                              offset := 0, length := 5 }],
                                    new := 1, my_pool := none },
                        payload := [103, 104, 105, 106, 107], region := 1,
                        result := some (svn_error_t.original 7 "refused") }] } := by
  decide

/-- C10, amended: for a fresh parser and any consumer, in particular one that
accepts the first window and fails on the second: when `svn_vcdiff_parse` on a
non-empty chunk returns an error, every earlier window of the call was
delivered successfully, the error is the failing consumer call's error wrapped,
and the parser's buffer is left as it was at the failing cut: it still holds
exactly the failing window's payload, 5 bytes, and the failing window's payload
string is still the parser's buffer object. -/
theorem parse_error_keeps_failing_window {β : Type} (handler : svn_delta_handler_t β)
    (handler_baton : Nat) (pool : apr_pool_t) (w : svn_world β) (chunk : List UInt8)
    (hne : chunk ≠ []) :
    ∃ e p1 w1 ds,
      svn_vcdiff_parse (svn_make_vcdiff_parser_fn handler handler_baton pool w).1 chunk
          (chunk.length : Int) (svn_make_vcdiff_parser_fn handler handler_baton pool w).2
        = Except.ok (e, p1, w1) ∧
      w1.trace = w.trace ++ ds ∧
      (∀ err, e = some err →
        ∃ init last ce,
          ds = init ++ [last] ∧ (∀ d ∈ init, d.result = none) ∧ last.result = some ce ∧
          err = svn_quick_wrap_error ce "svn_vcdiff_send_window: consumer_func choked." ∧
          svn_buffered p1 w1 = last.payload ∧
          last.payload.length = SVN_VCDIFF_WINDOW_SIZE ∧
          last.window.new = p1.buffer) := by
  rcases hrun : svn_vcdiff_parse_bytes (svn_make_vcdiff_parser_fn handler handler_baton pool w).1
      (svn_make_vcdiff_parser_fn handler handler_baton pool w).2 chunk with ⟨e, p1, w1⟩
  cases e with
  | none =>
    obtain ⟨ds, hds, -⟩ := svn_parse_bytes_ok_results chunk _ _ p1 w1 hrun
    exact ⟨none, p1, w1, ds, by rw [svn_parse_eq_bytes _ _ chunk hne, hrun], hds,
      by intro err h; simp at h⟩
  | some err =>
    obtain ⟨i, pi, wi, hi, hpre, hlen, hsend⟩ := svn_parse_bytes_error chunk _ _ err p1 w1 hrun
    obtain ⟨init, hinit, hall⟩ := svn_parse_bytes_ok_results (chunk.take i) _ _ pi wi hpre
    obtain ⟨ce, hres, herr, hp, hstr, -, htr⟩ := svn_send_window_fail pi _ wi err p1 w1 hsend
    refine ⟨some err, p1, w1, init ++ [svn_call_of pi SVN_VCDIFF_WINDOW_SIZE wi],
      by rw [svn_parse_eq_bytes _ _ chunk hne, hrun], ?_, ?_⟩
    · rw [htr, hinit]; simp [svn_make_parser_eq]
    · intro err2 h
      simp only [Option.some.injEq] at h
      subst h
      refine ⟨init, _, ce, rfl, hall, hres, herr, ?_, hlen, by rw [hp]; rfl⟩
      simp only [svn_buffered, svn_string_at, hp, hstr, svn_call_of]

/-- C10, witness: the consumer that fails on its second call, given the twelve
bytes "abcdefghijkl" by a fresh parser. -/
theorem parse_error_keeps_failing_window_witness :
    ∃ e p1 w1 ds,
      svn_vcdiff_parse svn_refusing [97, 98, 99, 100, 101, 102, 103, 104, 105, 106, 107, 108]
          (([97, 98, 99, 100, 101, 102, 103, 104, 105, 106, 107, 108] : List UInt8).length : Int)
          svn_refusing_world
        = Except.ok (e, p1, w1) ∧
      w1.trace = (svn_empty_world 0).trace ++ ds ∧
      (∀ err, e = some err →
        ∃ init last ce,
          ds = init ++ [last] ∧ (∀ d ∈ init, d.result = none) ∧ last.result = some ce ∧
          err = svn_quick_wrap_error ce "svn_vcdiff_send_window: consumer_func choked." ∧
          svn_buffered p1 w1 = last.payload ∧
          last.payload.length = SVN_VCDIFF_WINDOW_SIZE ∧
          last.window.new = p1.buffer) :=
  parse_error_keeps_failing_window (svn_fail_on_call 1 (svn_error_t.original 7 "refused")) 0 0
    (svn_empty_world 0) [97, 98, 99, 100, 101, 102, 103, 104, 105, 106, 107, 108] (by decide)

/-! ## Error context, capacity, the window's pool, the per-byte step, full windows -/

/-- C11, counterexample: a parser whose buffer holds "abcde" and whose consumer
refuses with the error e = `original 7 "refused"`.  Parsing the chunk "x" and
flushing, each from that state, return the very same error, e wrapped with the
message of `svn_vcdiff_send_window`: nothing in it tells the two operations
apart. -/
theorem parse_and_flush_errors_coincide :
    (svn_parse_outcome (svn_vcdiff_parse svn_choking [120] 1 svn_choking_world)).map
        (fun o => o.err)
      = some (some (svn_error_t.wrapped (svn_error_t.original 7 "refused")
          "svn_vcdiff_send_window: consumer_func choked.")) ∧
    (svn_vcdiff_flush_buffer svn_choking svn_choking_world).1
      = some (svn_error_t.wrapped (svn_error_t.original 7 "refused")
          "svn_vcdiff_send_window: consumer_func choked.") := by
  decide

/-- C11, amended: when the consumer fails with error e, the error returned to
the caller is e wrapped with the one message of `svn_vcdiff_send_window`,
"svn_vcdiff_send_window: consumer_func choked.", whether the call was
`svn_vcdiff_parse` or `svn_vcdiff_flush_buffer`; both carry e as their wrapped
cause, and for the same e the two returned errors are equal. -/
theorem consumer_error_is_wrapped_by_send_window {β : Type} (p : svn_vcdiff_parser_t β)
    (w : svn_world β) (chunk : List UInt8) (hne : chunk ≠ []) :
    (∃ e p1 w1 ds,
      svn_vcdiff_parse p chunk (chunk.length : Int) w = Except.ok (e, p1, w1) ∧
      w1.trace = w.trace ++ ds ∧
      ∀ err, e = some err →
        ∃ init last ce, ds = init ++ [last] ∧ last.result = some ce ∧
          err = svn_error_t.wrapped ce "svn_vcdiff_send_window: consumer_func choked.") ∧
    (∃ d,
      (svn_vcdiff_flush_buffer p w).2.2.trace = w.trace ++ [d] ∧
      ∀ err, (svn_vcdiff_flush_buffer p w).1 = some err →
        ∃ ce, d.result = some ce ∧
          err = svn_error_t.wrapped ce "svn_vcdiff_send_window: consumer_func choked.") := by
  constructor
  · rcases hrun : svn_vcdiff_parse_bytes p w chunk with ⟨e, p1, w1⟩
    cases e with
    | none =>
      obtain ⟨ds, hds, -⟩ := svn_parse_bytes_ok_results chunk p w p1 w1 hrun
      exact ⟨none, p1, w1, ds, by rw [svn_parse_eq_bytes p w chunk hne, hrun], hds,
        by intro err h; simp at h⟩
    | some err =>
      obtain ⟨i, pi, wi, -, hpre, -, hsend⟩ := svn_parse_bytes_error chunk p w err p1 w1 hrun
      obtain ⟨init, hinit, -⟩ := svn_parse_bytes_ok_results (chunk.take i) p w pi wi hpre
      obtain ⟨ce, hres, herr, -, -, -, htr⟩ := svn_send_window_fail pi _ wi err p1 w1 hsend
      refine ⟨some err, p1, w1, init ++ [svn_call_of pi SVN_VCDIFF_WINDOW_SIZE wi],
        by rw [svn_parse_eq_bytes p w chunk hne, hrun], by rw [htr, hinit]; simp, ?_⟩
      intro err2 h
      simp only [Option.some.injEq] at h
      subst h
      exact ⟨init, _, ce, rfl, hres, herr⟩
  · rw [svn_flush_eq_send]
    refine ⟨svn_call_of p (svn_buffered p w).length w, ?_, ?_⟩
    all_goals
      rcases svn_send_window_cases p (svn_buffered p w).length w with ⟨hres, hs⟩ | ⟨ce, hres, hs⟩
    all_goals rw [hs]
    · intro err h; simp at h
    · intro err h
      simp only [Option.some.injEq] at h
      exact ⟨ce, hres, h.symm⟩

/-- C11, witness: the refusing parser with a full buffer, given "x". -/
theorem consumer_error_is_wrapped_by_send_window_witness :
    (∃ e p1 w1 ds,
      svn_vcdiff_parse svn_choking [120] (([120] : List UInt8).length : Int) svn_choking_world
        = Except.ok (e, p1, w1) ∧
      w1.trace = svn_choking_world.trace ++ ds ∧
      ∀ err, e = some err →
        ∃ init last ce, ds = init ++ [last] ∧ last.result = some ce ∧
          err = svn_error_t.wrapped ce "svn_vcdiff_send_window: consumer_func choked.") ∧
    (∃ d,
      (svn_vcdiff_flush_buffer svn_choking svn_choking_world).2.2.trace
        = svn_choking_world.trace ++ [d] ∧
      ∀ err, (svn_vcdiff_flush_buffer svn_choking svn_choking_world).1 = some err →
        ∃ ce, d.result = some ce ∧
          err = svn_error_t.wrapped ce "svn_vcdiff_send_window: consumer_func choked.") :=
  consumer_error_is_wrapped_by_send_window svn_choking svn_choking_world [120] (by decide)

/-- C12: the buffer of a parser just made by `svn_make_vcdiff_parser` is empty;
`svn_vcdiff_parse` on a non-empty chunk and `svn_vcdiff_flush_buffer` each take
a state whose buffer has at most 5 bytes to one whose buffer has at most 5
bytes, whatever the consumer returns; and so after any finite sequence of such
calls on a new parser, with any consumer, every call returns and the buffer
holds at most 5 bytes. -/
theorem buffer_never_exceeds_capacity {β : Type} (handler : svn_delta_handler_t β)
    (handler_baton : Nat) (pool : apr_pool_t) (w : svn_world β) (calls : List svn_call)
    (hne : ∀ c ∈ calls, c ≠ svn_call.ingest []) :
    svn_buffered (svn_make_vcdiff_parser_fn handler handler_baton pool w).1
        (svn_make_vcdiff_parser_fn handler handler_baton pool w).2 = [] ∧
    (∀ (p : svn_vcdiff_parser_t β) (v : svn_world β) (chunk : List UInt8),
      chunk ≠ [] → (svn_buffered p v).length ≤ SVN_VCDIFF_WINDOW_SIZE →
      ∃ e p1 v1, svn_vcdiff_parse p chunk (chunk.length : Int) v = Except.ok (e, p1, v1) ∧
        (svn_buffered p1 v1).length ≤ SVN_VCDIFF_WINDOW_SIZE) ∧
    (∀ (p : svn_vcdiff_parser_t β) (v : svn_world β),
      (svn_buffered p v).length ≤ SVN_VCDIFF_WINDOW_SIZE →
      (svn_buffered (svn_vcdiff_flush_buffer p v).2.1
        (svn_vcdiff_flush_buffer p v).2.2).length ≤ SVN_VCDIFF_WINDOW_SIZE) ∧
    (∃ p1 w1,
      svn_run_calls (svn_make_vcdiff_parser_fn handler handler_baton pool w).1
          (svn_make_vcdiff_parser_fn handler handler_baton pool w).2 calls
        = Except.ok (p1, w1) ∧
      (svn_buffered p1 w1).length ≤ SVN_VCDIFF_WINDOW_SIZE) := by
  have hb := svn_make_parser_buffered handler handler_baton pool w
  refine ⟨hb, ?_, ?_, ?_⟩
  · intro p v chunk hc hcap
    exact ⟨_, _, _, svn_parse_eq_bytes p v chunk hc, svn_parse_bytes_bounded_any chunk p v hcap⟩
  · intro p v hcap
    rw [svn_flush_eq_send]
    exact svn_send_window_bounded p _ v hcap
  · exact svn_run_calls_bounded calls _ _ hne (by rw [hb]; simp)

/-- C12, witness: a parser whose consumer refuses its second window is given
"abcdefghijkl", flushed, given "mn" and flushed again. -/
theorem buffer_never_exceeds_capacity_witness :
    ∃ p1 w1,
      svn_run_calls svn_refusing svn_refusing_world
          [svn_call.ingest [97, 98, 99, 100, 101, 102, 103, 104, 105, 106, 107, 108],
           svn_call.flush, svn_call.ingest [109, 110], svn_call.flush]
        = Except.ok (p1, w1) ∧
      (svn_buffered p1 w1).length ≤ SVN_VCDIFF_WINDOW_SIZE :=
  (buffer_never_exceeds_capacity (svn_fail_on_call 1 (svn_error_t.original 7 "refused")) 0 0
    (svn_empty_world 0)
    [svn_call.ingest [97, 98, 99, 100, 101, 102, 103, 104, 105, 106, 107, 108],
     svn_call.flush, svn_call.ingest [109, 110], svn_call.flush]
    (by decide)).2.2.2

/-- C13: on the code no window records its pool.  A fresh parser with the
accepting consumer is given "abcdef": the window "abcde" is built in sub-pool 0
and handed over with `my_pool` never assigned, so `svn_free_delta_window` on it
has no defined result instead of destroying pool 0.  The same holds for every
call of `svn_vcdiff_send_window`: the window is built in the parser's sub-pool
and its `my_pool` is left unassigned. -/
theorem delivered_window_has_no_pool :
    (svn_parse_outcome
        (svn_vcdiff_parse svn_fresh [97, 98, 99, 100, 101, 102] 6 svn_fresh_world)).map
        (fun o => o.trace.map (fun d => (d.payload, d.region)))
      = some [([97, 98, 99, 100, 101], 0)] ∧
    (svn_parse_outcome
        (svn_vcdiff_parse svn_fresh [97, 98, 99, 100, 101, 102] 6 svn_fresh_world)).map
        (fun o => o.trace.map (fun d => d.window.my_pool))
      = some [none] ∧
    (svn_parse_outcome
        (svn_vcdiff_parse svn_fresh [97, 98, 99, 100, 101, 102] 6 svn_fresh_world)).map
        (fun o => o.trace.map (fun d => svn_free_delta_window d.window [0, 1]))
      = some [none] ∧
    svn_free_delta_window
        { num_ops := 1,
          ops := [{ op := svn_delta_action.svn_delta_new, offset := 0, length := 5 }],
          new := 0, my_pool := some 0 } [0, 1] = some [1] ∧
    ∀ (β : Type) (p : svn_vcdiff_parser_t β) (len : Nat) (w : svn_world β)
      (live : List apr_pool_t),
      ∃ d, (svn_vcdiff_send_window p len w).2.2.trace = w.trace ++ [d] ∧
        d.region = p.subpool ∧ d.window.my_pool = none ∧
        svn_free_delta_window d.window live = none := by
  refine ⟨by decide, by decide, by decide, by decide, ?_⟩
  intro β p len w live
  refine ⟨svn_call_of p len w, ?_, rfl, rfl, rfl⟩
  rcases svn_send_window_cases p len w with ⟨-, hs⟩ | ⟨ce, -, hs⟩ <;> rw [hs]

/-- C15: on the code the claim fails when the buffer is full.  The parser
`svn_fresh` with "abcde" buffered and the accepting consumer is given the
one-byte chunk "f": the window "abcde" is delivered and the buffer is then
empty, not "f"; the byte is not the last byte of the buffer, it is lost.  With
"abcd" buffered the same call delivers nothing and leaves "abcdf". -/
theorem parse_one_byte_on_full_buffer_loses_it :
    svn_parse_outcome (svn_vcdiff_parse svn_fresh [102] 1 svn_full_world)
      = some
          { err := none,
            buffer := [],
            trace := [{ window := { num_ops := 1,
                                    ops := [{ op := svn_delta_action.svn_delta_new,
                                              offset := 0, length := 5 }],
                                    new := 0, my_pool := none },
                        payload := [97, 98, 99, 100, 101], region := 0, result := none }] } ∧
    svn_buffered svn_fresh svn_full_world = [97, 98, 99, 100, 101] ∧
    svn_parse_outcome
        (svn_vcdiff_parse svn_fresh [102] 1
          (svn_string_appendbytes 0 [97, 98, 99, 100] svn_fresh_world))
      = some { err := none, buffer := [97, 98, 99, 100, 102], trace := [] } := by
  decide

/-- C16: for every parser state, non-empty chunk and consumer, every window
that `svn_vcdiff_parse` hands to the consumer has a payload of exactly 5 bytes
and one instruction of length exactly 5, and was cut from a buffer of exactly 5
bytes: the buffer, in the state reached after the bytes before the cut offset,
is the payload. -/
theorem parse_delivers_only_full_windows {β : Type} (p : svn_vcdiff_parser_t β)
    (w : svn_world β) (chunk : List UInt8) (hne : chunk ≠ []) :
    ∃ e p1 w1 ds,
      svn_vcdiff_parse p chunk (chunk.length : Int) w = Except.ok (e, p1, w1) ∧
      w1.trace = w.trace ++ ds ∧
      ∀ d ∈ ds,
        d.payload.length = SVN_VCDIFF_WINDOW_SIZE ∧
        d.window.ops = [{ op := svn_delta_action.svn_delta_new, offset := 0,
                          length := SVN_VCDIFF_WINDOW_SIZE }] ∧
        ∃ i pi wi, i < chunk.length ∧ svn_state_after p w chunk i pi wi ∧
          (svn_buffered pi wi).length = SVN_VCDIFF_WINDOW_SIZE ∧
          d.payload = svn_buffered pi wi := by
  obtain ⟨ds, hds, hall⟩ := svn_parse_bytes_calls chunk p w
  refine ⟨(svn_vcdiff_parse_bytes p w chunk).1, (svn_vcdiff_parse_bytes p w chunk).2.1,
    (svn_vcdiff_parse_bytes p w chunk).2.2, ds, svn_parse_eq_bytes p w chunk hne, hds, ?_⟩
  intro d hd
  obtain ⟨i, pi, wi, hi, hrun, hlen, rfl⟩ := hall d hd
  exact ⟨hlen, rfl, i, pi, wi, hi,
    (svn_state_after_iff p w chunk i (Nat.le_of_lt hi) pi wi).mpr hrun, hlen, rfl⟩

/-- C16, witness: the parser with "abcde" buffered, given "fghijklm". -/
theorem parse_delivers_only_full_windows_witness :
    ∃ e p1 w1 ds,
      svn_vcdiff_parse svn_fresh [102, 103, 104, 105, 106, 107, 108, 109]
          (([102, 103, 104, 105, 106, 107, 108, 109] : List UInt8).length : Int) svn_full_world
        = Except.ok (e, p1, w1) ∧
      w1.trace = svn_full_world.trace ++ ds ∧
      ∀ d ∈ ds,
        d.payload.length = SVN_VCDIFF_WINDOW_SIZE ∧
        d.window.ops = [{ op := svn_delta_action.svn_delta_new, offset := 0,
                          length := SVN_VCDIFF_WINDOW_SIZE }] ∧
        ∃ i pi wi, i < ([102, 103, 104, 105, 106, 107, 108, 109] : List UInt8).length ∧
          svn_state_after svn_fresh svn_full_world [102, 103, 104, 105, 106, 107, 108, 109]
            i pi wi ∧
          (svn_buffered pi wi).length = SVN_VCDIFF_WINDOW_SIZE ∧
          d.payload = svn_buffered pi wi :=
  parse_delivers_only_full_windows svn_fresh svn_full_world
    [102, 103, 104, 105, 106, 107, 108, 109] (by decide)

/-! ## The actual cut period, and reads within the chunk -/

/-- C17: a fresh parser with an accepting consumer is given any sequence of
non-empty chunks whose concatenation is s, of length L.  Every call succeeds;
exactly L div 6 windows are delivered, window k (from 0) having the 5 bytes
s[6k .. 6k+5) as payload; the buffer is left holding exactly the L mod 6 bytes
s[6 * (L div 6) .. L).  So the byte at each index 6k+5 is in no window and not
in the buffer, and the windows and the buffer together hold L - L div 6 bytes. -/
theorem parse_cuts_every_six_bytes {β : Type} (handler : svn_delta_handler_t β)
    (handler_baton : Nat) (pool : apr_pool_t) (w : svn_world β)
    (chunks : List (List UInt8))
    (hacc : svn_accepting handler) (hne : ∀ c ∈ chunks, c ≠ []) :
    ∃ p1 w1 ds,
      svn_vcdiff_parse_chunks (svn_make_vcdiff_parser_fn handler handler_baton pool w).1
          (svn_make_vcdiff_parser_fn handler handler_baton pool w).2 chunks
        = Except.ok (none, p1, w1) ∧
      w1.trace = w.trace ++ ds ∧
      ds.length = chunks.flatten.length / 6 ∧
      ds.map svn_delivery.payload =
        (List.range (chunks.flatten.length / 6)).map
          (fun k => (chunks.flatten.drop (6 * k)).take 5) ∧
      (∀ d ∈ ds, d.payload.length = 5) ∧
      svn_buffered p1 w1 = chunks.flatten.drop (6 * (chunks.flatten.length / 6)) ∧
      (svn_buffered p1 w1).length = chunks.flatten.length % 6 ∧
      ((ds.map svn_delivery.payload).flatten ++ svn_buffered p1 w1).length
        = chunks.flatten.length - chunks.flatten.length / 6 := by
  have hb := svn_make_parser_buffered handler handler_baton pool w
  obtain ⟨p1, w1, ds, hrun, htr, hpay, hbuf⟩ :=
    svn_parse_bytes_period chunks.flatten
      (svn_make_vcdiff_parser_fn handler handler_baton pool w).1
      (svn_make_vcdiff_parser_fn handler handler_baton pool w).2
      hacc (by simp [svn_make_parser_eq]) (by rw [hb]; simp)
  obtain ⟨p2, w2, ds2, hrun2, htr2, hcount, hlen, hfive, -⟩ :=
    svn_parse_bytes_count chunks.flatten
      (svn_make_vcdiff_parser_fn handler handler_baton pool w).1
      (svn_make_vcdiff_parser_fn handler handler_baton pool w).2
      hacc (by simp [svn_make_parser_eq]) (by rw [hb]; simp)
  rw [hrun] at hrun2
  simp only [Prod.mk.injEq, true_and] at hrun2
  obtain ⟨hp, hw⟩ := hrun2
  subst hp hw
  have hds : ds2 = ds := List.append_cancel_left (htr2.symm.trans htr)
  subst hds
  rw [hb] at hpay hbuf hcount hlen
  simp only [List.length_nil, Nat.zero_add, List.nil_append] at hpay hbuf hcount hlen
  have hsum : (ds2.map svn_delivery.payload).flatten.length = 5 * ds2.length := by
    rw [svn_flatten_length_five _ (by
      intro x hx
      obtain ⟨d, hd, rfl⟩ := List.mem_map.mp hx
      exact hfive d hd)]
    simp
  refine ⟨p1, w1, ds2, ?_, ?_, hcount, hpay, hfive, hbuf, hlen, ?_⟩
  · rw [svn_parse_chunks_eq_bytes chunks hne, hrun]
  · rw [htr]; rfl
  · rw [List.length_append, hsum, hcount, hlen]; omega

/-- C17, witness: "abcdefghijklmn" fed as "abc", "defghijk", "lmn". -/
theorem parse_cuts_every_six_bytes_witness :
    ∃ (p1 : svn_vcdiff_parser_t Unit) (w1 : svn_world Unit) (ds : List svn_delivery),
      svn_vcdiff_parse_chunks svn_fresh svn_fresh_world
          [[97, 98, 99], [100, 101, 102, 103, 104, 105, 106, 107], [108, 109, 110]]
        = Except.ok (none, p1, w1) ∧
      ds.map svn_delivery.payload
        = [[97, 98, 99, 100, 101], [103, 104, 105, 106, 107]] ∧
      svn_buffered p1 w1 = [109, 110] := by
  obtain ⟨p1, w1, ds, hrun, -, -, hpay, -, hbuf, -, -⟩ :=
    parse_cuts_every_six_bytes svn_accept_all 0 0 (svn_empty_world ())
      [[97, 98, 99], [100, 101, 102, 103, 104, 105, 106, 107], [108, 109, 110]]
      (fun _ _ _ _ => rfl) (by decide)
  exact ⟨p1, w1, ds, hrun, hpay, hbuf⟩

/-- C18: for every parser state, every consumer and every array `buffer` and
length `len` with 1 <= len <= the size of the array, `svn_vcdiff_parse`
returns, never reading outside the array and never running out of its
iteration bound; the loop already returns the same when it is allowed only
len - 1 iterations after the first; what is returned is what the iterations
return when iteration j is handed the byte at index j for j = 0 .. len - 1;
and any array that agrees on the indices 0 .. len - 1, the array cut off after
len bytes among them, gives the same result, so no index from len on is read. -/
theorem parse_reads_only_the_chunk {β : Type} (p : svn_vcdiff_parser_t β) (w : svn_world β)
    (buffer : List UInt8) (len : Int) (h1 : 1 ≤ len) (h2 : len ≤ (buffer.length : Int)) :
    ∃ r,
      svn_vcdiff_parse p buffer len w = Except.ok r ∧
      svn_vcdiff_parse_loop buffer len (len.toNat - 1) 0 p w = Except.ok r ∧
      r = svn_vcdiff_parse_bytes p w (buffer.take len.toNat) ∧
      svn_vcdiff_parse p (buffer.take len.toNat) len w = Except.ok r ∧
      ∀ buffer2 : List UInt8, buffer2.take len.toNat = buffer.take len.toNat →
        svn_vcdiff_parse p buffer2 len w = Except.ok r := by
  obtain ⟨n, rfl⟩ := Int.eq_ofNat_of_zero_le (by omega : (0 : Int) ≤ len)
  have hn : n ≤ buffer.length := by exact_mod_cast h2
  have hpos : 0 < n := by omega
  simp only [Int.toNat_ofNat]
  refine ⟨svn_vcdiff_parse_bytes p w (buffer.take n), ?_, ?_, rfl, ?_, ?_⟩
  · unfold svn_vcdiff_parse
    simp only [Int.toNat_ofNat]
    exact svn_parse_loop_within buffer n hn n p w hpos (by omega)
  · exact svn_parse_loop_within buffer n hn (n - 1) p w hpos (by omega)
  · unfold svn_vcdiff_parse
    simp only [Int.toNat_ofNat]
    have := svn_parse_loop_within (buffer.take n) n (by simp [List.length_take, hn]) n p w
      hpos (by omega)
    rw [this, List.take_take, Nat.min_self]
  · intro buffer2 h
    have hn2 : n ≤ buffer2.length := by
      have h3 : (buffer2.take n).length = n := by rw [h]; simp [List.length_take, hn]
      simp only [List.length_take] at h3
      omega
    unfold svn_vcdiff_parse
    simp only [Int.toNat_ofNat]
    rw [svn_parse_loop_within buffer2 n hn2 n p w hpos (by omega), h]

/-- C18, witness: an array of 8 bytes passed with *len = 3 to the parser with
"abcde" buffered. -/
theorem parse_reads_only_the_chunk_witness :
    ∃ r,
      svn_vcdiff_parse svn_fresh [102, 103, 104, 105, 106, 107, 108, 109] 3 svn_full_world
        = Except.ok r ∧
      svn_vcdiff_parse svn_fresh [102, 103, 104] 3 svn_full_world = Except.ok r := by
  obtain ⟨r, h1, -, -, h4, -⟩ :=
    parse_reads_only_the_chunk svn_fresh svn_full_world
      [102, 103, 104, 105, 106, 107, 108, 109] 3 (by decide) (by decide)
  exact ⟨r, h1, h4⟩

/-! ## Ownership hand-off -/

/-- C14: pools and strings are identifiers on the explicit world.  A new
parser is taken through any sequence of calls (`svn_vcdiff_parse` on non-empty
chunks, `svn_vcdiff_flush_buffer`) and then through any later sequence of
calls, with any consumer.  Every window handed over refers to a pool and a
string in use.  For every window the consumer accepted in the first sequence:
its pool and its payload string are not the parser's current sub-pool and
buffer, neither right after the first sequence nor after the later calls, and
the payload string holds, at both moments, exactly the bytes and the pool it
had when it was handed over.  And a successful `svn_vcdiff_send_window` leaves
the parser with the pool handle and the string address that were the next
unused ones, so with a sub-pool and an empty buffer that no window handed over
before refers to. -/
theorem accepted_windows_are_never_touched {β : Type} (handler : svn_delta_handler_t β)
    (handler_baton : Nat) (pool : apr_pool_t) (w : svn_world β) (calls later : List svn_call)
    (hne : ∀ c ∈ calls, c ≠ svn_call.ingest [])
    (hlater : ∀ c ∈ later, c ≠ svn_call.ingest []) :
    (∃ p1 w1 ds p2 w2 more,
      svn_run_calls (svn_make_vcdiff_parser_fn handler handler_baton pool w).1
          (svn_make_vcdiff_parser_fn handler handler_baton pool w).2 calls
        = Except.ok (p1, w1) ∧
      w1.trace = w.trace ++ ds ∧
      svn_run_calls p1 w1 later = Except.ok (p2, w2) ∧
      w2.trace = w.trace ++ (ds ++ more) ∧
      (∀ d ∈ ds ++ more, d.region < w2.next_pool ∧ d.window.new < w2.strings.length) ∧
      (∀ d ∈ ds, d.result = none →
        d.region ≠ p1.subpool ∧ d.window.new ≠ p1.buffer ∧
        svn_string_at w1 d.window.new = ⟨d.payload, d.region⟩ ∧
        d.region ≠ p2.subpool ∧ d.window.new ≠ p2.buffer ∧
        svn_string_at w2 d.window.new = ⟨d.payload, d.region⟩)) ∧
    (∀ (p : svn_vcdiff_parser_t β) (v : svn_world β) (len : Nat),
      (svn_vcdiff_send_window p len v).1 = none →
      (svn_vcdiff_send_window p len v).2.1.subpool = v.next_pool ∧
      (svn_vcdiff_send_window p len v).2.1.buffer = v.strings.length ∧
      svn_string_at (svn_vcdiff_send_window p len v).2.2
        (svn_vcdiff_send_window p len v).2.1.buffer = ⟨[], v.next_pool⟩) := by
  constructor
  · have h0 := svn_handed_off_new handler handler_baton pool w
    have ht0 : (svn_make_vcdiff_parser_fn handler handler_baton pool w).2.trace = w.trace ++ [] := by
      simp [svn_make_parser_eq]
    obtain ⟨p1, w1, ds, hrun1, htr1, hinv1⟩ :=
      svn_handed_off_run calls _ _ w.trace [] hne ht0 h0
    simp only [List.nil_append] at htr1 hinv1
    obtain ⟨p2, w2, more, hrun2, htr2, hinv2⟩ :=
      svn_handed_off_run later p1 w1 w.trace ds hlater htr1 hinv1
    refine ⟨p1, w1, ds, p2, w2, more, hrun1, htr1, hrun2, htr2, ?_, ?_⟩
    · intro d hd
      exact ⟨(hinv2.2.2.2 d hd).1, (hinv2.2.2.2 d hd).2.1⟩
    · intro d hd hres
      obtain ⟨a1, a2, a3⟩ := (hinv1.2.2.2 d hd).2.2 hres
      obtain ⟨b1, b2, b3⟩ := (hinv2.2.2.2 d (List.mem_append_left _ hd)).2.2 hres
      exact ⟨a1, a2, a3, b1, b2, b3⟩
  · intro p v len hok
    rcases svn_send_window_cases p len v with ⟨-, hs⟩ | ⟨ce, -, hs⟩
    · rw [hs]
      refine ⟨rfl, rfl, ?_⟩
      simp [svn_string_at, List.getD_eq_getElem?_getD]
    · rw [hs] at hok
      simp at hok

/-- C14, witness: a fresh parser with the accepting consumer is given
"abcdefgh" and flushed, and later given "ijklmnop" and flushed. -/
theorem accepted_windows_are_never_touched_witness :
    ∃ (p1 : svn_vcdiff_parser_t Unit) (w1 : svn_world Unit) (ds : List svn_delivery)
      (p2 : svn_vcdiff_parser_t Unit) (w2 : svn_world Unit) (more : List svn_delivery),
      svn_run_calls svn_fresh svn_fresh_world
          [svn_call.ingest [97, 98, 99, 100, 101, 102, 103, 104], svn_call.flush]
        = Except.ok (p1, w1) ∧
      w1.trace = ds ∧
      svn_run_calls p1 w1
          [svn_call.ingest [105, 106, 107, 108, 109, 110, 111, 112], svn_call.flush]
        = Except.ok (p2, w2) ∧
      w2.trace = ds ++ more ∧
      ∀ d ∈ ds, d.result = none →
        d.region ≠ p2.subpool ∧ d.window.new ≠ p2.buffer ∧
        svn_string_at w2 d.window.new = ⟨d.payload, d.region⟩ := by
  obtain ⟨⟨p1, w1, ds, p2, w2, more, h1, h2, h3, h4, -, h6⟩, -⟩ :=
    accepted_windows_are_never_touched svn_accept_all 0 0 (svn_empty_world ())
      [svn_call.ingest [97, 98, 99, 100, 101, 102, 103, 104], svn_call.flush]
      [svn_call.ingest [105, 106, 107, 108, 109, 110, 111, 112], svn_call.flush]
      (by decide) (by decide)
  refine ⟨p1, w1, ds, p2, w2, more, h1, by simpa [svn_empty_world] using h2, h3,
    by simpa [svn_empty_world] using h4, ?_⟩
  intro d hd hres
  exact ⟨(h6 d hd hres).2.2.2.1, (h6 d hd hres).2.2.2.2.1, (h6 d hd hres).2.2.2.2.2⟩

/-! ## The catalog lookup -/

theorem message_cmp_symm_zero {α : Type} (cmp : α → α → Int)
    (hanti : ∀ x y, cmp x y < 0 ↔ 0 < cmp y x) (x y : α) (h : cmp x y = 0) :
    cmp y x = 0 := by
  have h1 := hanti x y
  have h2 := hanti y x
  omega

theorem message_gettext_loop_hit {α : Type} (cmp : α → α → Int) (mt : message_table_t α)
    (msgid : α) (k : Nat) (ek tk : message_entry_t)
    (hanti : ∀ x y, cmp x y < 0 ↔ 0 < cmp y x)
    (htrans : ∀ x y z, cmp x y ≤ 0 → cmp y z ≤ 0 → cmp x z ≤ 0)
    (hn : mt.num_strings < 2147483648)
    (horig : mt.original.length = mt.num_strings)
    (hasc : ∀ (i j : Nat) (ei ej : message_entry_t), i < j → mt.original[i]? = some ei → mt.original[j]? = some ej →
      cmp (mt.map ei.offset) (mt.map ej.offset) < 0)
    (hek : mt.original[k]? = some ek) (htk : mt.translated[k]? = some tk)
    (hhit : cmp msgid (mt.map ek.offset) = 0) :
    ∀ (bound a b : Nat), a ≤ k → k ≤ b → b < mt.num_strings → b - a < bound →
      message_table_gettext_loop cmp mt msgid bound a b = Except.ok (mt.map tk.offset) := by
  intro bound
  induction bound with
  | zero => intro a b _ _ _ hsize; omega
  | succ bound ih =>
    intro a b hak hkb hbn hsize
    have hm : (a + b) % 4294967296 / 2 = (a + b) / 2 := by
      rw [Nat.mod_eq_of_lt (by omega)]
    have hmn : (a + b) / 2 < mt.original.length := by omega
    obtain ⟨em, hem⟩ : ∃ em, mt.original[(a + b) / 2]? = some em :=
      ⟨_, List.getElem?_eq_getElem hmn⟩
    unfold message_table_gettext_loop
    simp only [hm, hem]
    have hsym := message_cmp_symm_zero cmp hanti _ _ hhit
    rcases Nat.lt_trichotomy ((a + b) / 2) k with hlt | heq | hgt
    · -- the middle string is before the one looked for
      have h1 := hasc _ _ em ek hlt hem hek
      have hpos : 0 < cmp msgid (mt.map em.offset) := by
        by_contra hcon
        have h2 := htrans (mt.map ek.offset) msgid (mt.map em.offset) (by omega) (by omega)
        have h3 := (hanti (mt.map em.offset) (mt.map ek.offset)).mp h1
        omega
      have hab : a ≠ b := by omega
      rw [if_neg (by omega), if_neg hab, if_neg (by omega)]
      have hnext : ((a + b) / 2 + 1) % 4294967296 = (a + b) / 2 + 1 :=
        Nat.mod_eq_of_lt (by omega)
      rw [hnext]
      exact ih _ _ (by omega) hkb hbn (by omega)
    · -- the middle string is the one looked for
      rw [heq] at hem
      have hee : em = ek := by rw [hek] at hem; exact (Option.some.inj hem).symm
      rw [hee, if_pos hhit, heq, htk]
    · -- the middle string is after the one looked for
      have h1 := hasc _ _ ek em hgt hek hem
      have hneg : cmp msgid (mt.map em.offset) < 0 := by
        by_contra hcon
        have h0 : cmp (mt.map em.offset) msgid ≤ 0 := by
          have := hanti msgid (mt.map em.offset)
          have := hanti (mt.map em.offset) msgid
          by_contra h9
          omega
        have h2 := htrans (mt.map em.offset) msgid (mt.map ek.offset) h0 (by omega)
        have h3 := (hanti (mt.map ek.offset) (mt.map em.offset)).mp h1
        omega
      have hab : a ≠ b := by omega
      rw [if_neg (by omega), if_neg hab, if_pos hneg]
      have hprev : ((a + b) / 2 + 4294967295) % 4294967296 = (a + b) / 2 - 1 := by omega
      rw [hprev]
      exact ih _ _ hak (by omega) (by omega) (by omega)

/-- C19: for every message table with 1 <= num_strings < 2^31 whose two index
arrays hold num_strings entries and whose original strings are strictly
ascending under the comparison used by the search, a total order, and every
msgid that compares equal to the original string at an index k: with
num_strings or more iterations allowed `message_table_gettext` returns, without
reading an index array outside its entries, and what it returns is the
translated string at index k. -/
theorem gettext_hit_returns_translation {α : Type} (cmp : α → α → Int)
    (mt : message_table_t α) (msgid : α) (k bound : Nat) (ek : message_entry_t)
    (hanti : ∀ x y, cmp x y < 0 ↔ 0 < cmp y x)
    (htrans : ∀ x y z, cmp x y ≤ 0 → cmp y z ≤ 0 → cmp x z ≤ 0)
    (hn1 : 1 ≤ mt.num_strings) (hn2 : mt.num_strings < 2147483648)
    (horig : mt.original.length = mt.num_strings)
    (htransl : mt.translated.length = mt.num_strings)
    (hasc : ∀ (i j : Nat) (ei ej : message_entry_t), i < j → mt.original[i]? = some ei → mt.original[j]? = some ej →
      cmp (mt.map ei.offset) (mt.map ej.offset) < 0)
    (hek : mt.original[k]? = some ek)
    (hhit : cmp msgid (mt.map ek.offset) = 0)
    (hbound : mt.num_strings ≤ bound) :
    ∃ tk, mt.translated[k]? = some tk ∧
      message_table_gettext cmp mt msgid bound = Except.ok (mt.map tk.offset) := by
  have hk : k < mt.num_strings := by
    rw [← horig]
    by_contra h
    rw [List.getElem?_eq_none (by omega)] at hek
    simp at hek
  have hkt : k < mt.translated.length := by omega
  refine ⟨mt.translated[k], List.getElem?_eq_getElem hkt, ?_⟩
  unfold message_table_gettext
  have hb : (mt.num_strings + 4294967295) % 4294967296 = mt.num_strings - 1 := by omega
  rw [hb]
  exact message_gettext_loop_hit cmp mt msgid k ek _ hanti htrans hn2 horig hasc hek
    (List.getElem?_eq_getElem hkt) hhit bound 0 (mt.num_strings - 1) (by omega) (by omega)
    (by omega) (by omega)

/-- C19, witness: the catalog with the strings 10, 20, 30, 40, looked up
for 30, with 4 iterations allowed. -/
theorem gettext_hit_returns_translation_witness :
    ∃ tk, (svn_rank_table [10, 20, 30, 40]).translated[2]? = some tk ∧
      message_table_gettext svn_rank_cmp (svn_rank_table [10, 20, 30, 40]) 30 4
        = Except.ok ((svn_rank_table [10, 20, 30, 40]).map tk.offset) :=
  gettext_hit_returns_translation svn_rank_cmp (svn_rank_table [10, 20, 30, 40]) 30 2 4
    { len := 1, offset := 30 }
    (by intro x y; simp only [svn_rank_cmp]; omega)
    (by intro x y z; simp only [svn_rank_cmp]; omega)
    (by decide) (by decide) (by decide) (by decide)
    (by
      intro i j ei ej hij hi hj
      have hj4 : j < 4 := by
        by_contra h
        have : (svn_rank_table [10, 20, 30, 40]).original[j]? = none :=
          List.getElem?_eq_none (by simp [svn_rank_table]; omega)
        rw [this] at hj
        simp at hj
      have hcases : (i = 0 ∨ i = 1 ∨ i = 2) ∧ (j = 1 ∨ j = 2 ∨ j = 3) := by omega
      rcases hcases with ⟨hi0 | hi0 | hi0, hj0 | hj0 | hj0⟩ <;> subst hi0 <;> subst hj0 <;>
        first
          | omega
          | (simp only [svn_rank_table, List.map, List.getElem?_cons_zero,
               List.getElem?_cons_succ, Option.some.injEq] at hi hj
             subst hi hj
             decide))
    (by decide) (by decide) (by decide)

theorem message_gettext_loop_stuck :
    ∀ bound : Nat,
      message_table_gettext_loop svn_rank_cmp (svn_rank_table [10, 20, 30, 40]) 25 bound 2 1
        = Except.error message_fault.loop_bound_exceeded := by
  intro bound
  induction bound with
  | zero => rfl
  | succ bound ih =>
    have hstep :
        message_table_gettext_loop svn_rank_cmp (svn_rank_table [10, 20, 30, 40]) 25
            (bound + 1) 2 1
          = message_table_gettext_loop svn_rank_cmp (svn_rank_table [10, 20, 30, 40]) 25
            bound 2 1 := rfl
    rw [hstep, ih]

/-- C20: on the code the claim fails.  The comparison is the difference of
numbers and the strings are numbers.  In the catalog 10, 20 the msgid 5, which
equals neither, makes the first iteration set b = m - 1 with m = 0, which wraps
around to 2^32 - 1, and the second iteration reads the index array at
2147483647, outside its two entries, however many iterations are allowed.  In
the catalog 10, 20, 30, 40 the msgid 25 takes the bounds from (0, 3) to (2, 3)
to (2, 1), where they stay: the loop never returns, whatever number of
iterations is allowed.  In neither case is msgid returned. -/
theorem gettext_miss_wraps_or_never_returns :
    (∀ bound : Nat,
      message_table_gettext svn_rank_cmp (svn_rank_table [10, 20]) 5 (bound + 2)
        = Except.error (message_fault.index_outside 2147483647)) ∧
    (∀ bound : Nat,
      message_table_gettext svn_rank_cmp (svn_rank_table [10, 20, 30, 40]) 25 bound
        = Except.error message_fault.loop_bound_exceeded) ∧
    svn_rank_cmp 5 10 ≠ 0 ∧ svn_rank_cmp 5 20 ≠ 0 ∧
    svn_rank_cmp 25 10 ≠ 0 ∧ svn_rank_cmp 25 20 ≠ 0 ∧
    svn_rank_cmp 25 30 ≠ 0 ∧ svn_rank_cmp 25 40 ≠ 0 := by
  refine ⟨fun bound => rfl, ?_, by decide, by decide, by decide, by decide, by decide,
    by decide⟩
  intro bound
  match bound with
  | 0 => rfl
  | 1 => rfl
  | bound + 2 =>
    have hstep :
        message_table_gettext svn_rank_cmp (svn_rank_table [10, 20, 30, 40]) 25 (bound + 2)
          = message_table_gettext_loop svn_rank_cmp (svn_rank_table [10, 20, 30, 40]) 25
            bound 2 1 := rfl
    rw [hstep, message_gettext_loop_stuck]

end Svn
